import Mathlib

/-!
Verification of the chest-of-drawers dimension engine and cutlist optimizer.

This file shallowly embeds the pure computational core of the
woodworking-planner repository in Lean 4:
  * `calculations/gridfinity.ts` (grid-unit to length conversion),
  * `calculations/carcass.ts` (carcass sizing and piece list),
  * `calculations/drawer.ts` (drawer-box sizing, face sizing, warnings),
  * `calculations/cutlist.ts` (piece aggregation),
  * `calculations/bin-packing.ts` (guillotine 2D bin packing),
and proves functional-correctness and invariant theorems about the
embedding.

JavaScript `number` values are modelled as rationals (`ℚ`); every length
that occurs in the engine is produced by field arithmetic on configuration
inputs, so the rational model is exact on rational inputs.
-/

set_option maxHeartbeats 1000000

namespace Chest

/-- Unit of measure, `"inches" | "cm"` in `types.ts` (named `Unit` there;
renamed here to avoid clashing with Lean's built-in `Unit`). -/
inductive MeasureUnit where
  | inches
  | cm
deriving DecidableEq, Repr

/-- `WoodThickness` from `types.ts`. -/
structure WoodThickness where
  id : String
  nominal : String
  actual : ℚ
  material : String
deriving DecidableEq, Repr

/-- `SlideSpec` from `types.ts`. -/
structure SlideSpec where
  length : ℚ
  clearancePerSide : ℚ
  minMountingHeight : ℚ
deriving DecidableEq, Repr

/-- `HorizontalRailConfig` from `types.ts`. -/
structure HorizontalRailConfig where
  enabled : Bool
  thickness : WoodThickness
  width : ℚ
deriving DecidableEq, Repr

/-- `WoodAssignments` from `types.ts`. -/
structure WoodAssignments where
  carcassTopBottom : WoodThickness
  carcassSides : WoodThickness
  carcassDividers : WoodThickness
  carcassBack : WoodThickness
  horizontalRails : WoodThickness
  drawerSides : WoodThickness
  drawerFrontBack : WoodThickness
  drawerBottom : WoodThickness
  drawerFace : WoodThickness
deriving DecidableEq, Repr

/-- `DrawerWoodOverride` from `types.ts` (all fields optional). -/
structure DrawerWoodOverride where
  sides : Option WoodThickness
  frontBack : Option WoodThickness
  bottom : Option WoodThickness
  face : Option WoodThickness
deriving DecidableEq, Repr

/-- `DrawerBoxConstruction` from `types.ts`. -/
inductive DrawerBoxConstruction where
  | dado
  | buttThroughSides
  | buttThroughBottom
deriving DecidableEq, Repr

/-- `DrawerStyle` from `types.ts`. -/
inductive DrawerStyle where
  | overlay
  | inset
deriving DecidableEq, Repr

/-- `DrawerRow` from `types.ts` (the optional `heightMode` field is purely
UI state and is not read by any function modelled here; it is omitted). -/
structure DrawerRow where
  id : String
  openingHeight : ℚ
  binHeightUnits : ℚ
  construction : DrawerBoxConstruction
  woodOverride : Option DrawerWoodOverride
deriving DecidableEq, Repr

/-- `Column` from `types.ts`. -/
structure Column where
  id : String
  openingWidth : ℚ
  gridWidthUnits : ℚ
  rows : List DrawerRow
deriving DecidableEq, Repr

/-- `Dimensions` from `types.ts`. -/
structure Dimensions where
  width : ℚ
  height : ℚ
  depth : ℚ
deriving DecidableEq, Repr

/-- `ChestConfig` from `types.ts`. -/
structure ChestConfig where
  name : String
  unit : MeasureUnit
  constraints : Option Dimensions
  columns : List Column
  drawerStyle : DrawerStyle
  defaultConstruction : DrawerBoxConstruction
  defaultRowHeight : ℚ
  defaultGridWidthUnits : ℚ
  defaultBinHeightUnits : ℚ
  woodAssignments : WoodAssignments
  advancedWoodMode : Bool
  slideSpec : SlideSpec
  horizontalRails : HorizontalRailConfig
  kerfWidth : ℚ
  dadoGrooveDepth : ℚ
  dadoGrooveOffset : ℚ
  overlayOverlap : ℚ
  insetRevealGap : ℚ
  drawerVerticalClearance : ℚ
  drawerBackClearance : ℚ
deriving DecidableEq, Repr

/-- The `"width" | "height" | "depth"` tag of `ConstraintViolation`. -/
inductive DimKind where
  | width
  | height
  | depth
deriving DecidableEq, Repr

/-- `ConstraintViolation` from `types.ts`. -/
structure ConstraintViolation where
  dimension : DimKind
  actual : ℚ
  max : ℚ
deriving DecidableEq, Repr

/-- `CarcassDimensions` from `types.ts`. -/
structure CarcassDimensions where
  outerWidth : ℚ
  outerHeight : ℚ
  outerDepth : ℚ
  innerWidth : ℚ
  innerDepth : ℚ
  constraintViolations : List ConstraintViolation
deriving DecidableEq, Repr

/-- The warning tag of `DrawerWarning` from `types.ts`. -/
inductive DrawerWarningType where
  | slideHeight
  | slideLength
  | negativeDimension
deriving DecidableEq, Repr

/-- `DrawerWarning` from `types.ts`. -/
structure DrawerWarning where
  type : DrawerWarningType
  message : String
deriving DecidableEq, Repr

/-- `DrawerBoxDimensions` from `types.ts`. -/
structure DrawerBoxDimensions where
  rowId : String
  columnId : String
  boxOuterWidth : ℚ
  boxOuterHeight : ℚ
  boxOuterDepth : ℚ
  usableInteriorWidth : ℚ
  usableInteriorHeight : ℚ
  usableInteriorDepth : ℚ
  sideLength : ℚ
  sideHeight : ℚ
  frontBackLength : ℚ
  frontBackHeight : ℚ
  bottomWidth : ℚ
  bottomDepth : ℚ
  faceWidth : ℚ
  faceHeight : ℚ
  warnings : List DrawerWarning
deriving DecidableEq, Repr

/-- `CutPiece` from `types.ts`.  Quantities are whole counts of physical
panels, so `quantity` is a `ℕ`. -/
structure CutPiece where
  id : String
  label : String
  width : ℚ
  height : ℚ
  thickness : WoodThickness
  quantity : ℕ
deriving DecidableEq, Repr

/-- `StockSheet` from `types.ts`. -/
structure StockSheet where
  id : String
  label : String
  width : ℚ
  height : ℚ
  thickness : WoodThickness
deriving DecidableEq, Repr

/-- `PlacedPiece` from `types.ts`. -/
structure PlacedPiece where
  piece : CutPiece
  x : ℚ
  y : ℚ
  rotated : Bool
deriving DecidableEq, Repr

/-- `SheetLayout` from `types.ts`. -/
structure SheetLayout where
  sheet : StockSheet
  placements : List PlacedPiece
  wastePercentage : ℚ
  usedArea : ℚ
  totalArea : ℚ
deriving DecidableEq, Repr

/-! ## gridfinity.ts -/

/-- `GRID_UNIT_MM` from `gridfinity.ts`: a Gridfinity grid cell is 42mm. -/
def GRID_UNIT_MM : ℚ := 42

/-- `MM_PER_INCH` from `gridfinity.ts`. -/
def MM_PER_INCH : ℚ := 254 / 10

/-- `toMm` from `gridfinity.ts`: inches scale by 25.4, cm by 10. -/
def toMm (value : ℚ) (unit : MeasureUnit) : ℚ :=
  match unit with
  | .inches => value * MM_PER_INCH
  | .cm => value * 10

/-- `gridfinityGridUnits` from `gridfinity.ts`:
`Math.floor(dimensionMm / 42)`. -/
def gridfinityGridUnits (dimensionMm : ℚ) : ℤ :=
  ⌊dimensionMm / GRID_UNIT_MM⌋

/-- `roundUpToNearestEighth` from `gridfinity.ts`:
`Math.ceil(inches * 8) / 8`. -/
def roundUpToNearestEighth (inches : ℚ) : ℚ :=
  (⌈inches * 8⌉ : ℚ) / 8

/-- `openingWidthForGridUnits` from `gridfinity.ts`: grid units → minimum
interior mm → inches → add drawer-side thickness and slide clearance on
both sides → round up to the nearest 1/8". -/
def openingWidthForGridUnits (gridUnits drawerSideThickness clearancePerSide : ℚ) : ℚ :=
  roundUpToNearestEighth
    (gridUnits * GRID_UNIT_MM / MM_PER_INCH +
      2 * drawerSideThickness + 2 * clearancePerSide)

/-! ## carcass.ts -/

/-- `getColumnInnerHeight` from `carcass.ts`: total row opening height,
plus one rail thickness per gap between rows when horizontal rails are
enabled and the column has more than one row. -/
def getColumnInnerHeight (column : Column) (config : ChestConfig) : ℚ :=
  let totalRowHeight := (column.rows.map (·.openingHeight)).sum
  if config.horizontalRails.enabled = false ∨ column.rows.length ≤ 1 then
    totalRowHeight
  else
    totalRowHeight +
      ((column.rows.length - 1 : ℕ) : ℚ) * config.horizontalRails.thickness.actual

/-- `Math.max(...)` over a list.  JavaScript's `Math.max()` of an empty
spread is `-Infinity`, which has no rational counterpart; the empty case
is mapped to `0` and every theorem that depends on this maximum assumes
at least one column, as the specification's claims do. -/
def maxOfList : List ℚ → ℚ
  | [] => 0
  | x :: xs => xs.foldl max x

/-- `checkConstraintViolations` from `carcass.ts`: one violation per outer
dimension strictly exceeding its configured maximum; no violations when
no constraints are configured. -/
def checkConstraintViolations (outer : Dimensions) (constraints : Option Dimensions) :
    List ConstraintViolation :=
  match constraints with
  | none => []
  | some c =>
    (if outer.width > c.width then
      [{ dimension := DimKind.width, actual := outer.width, max := c.width }] else []) ++
    (if outer.height > c.height then
      [{ dimension := DimKind.height, actual := outer.height, max := c.height }] else []) ++
    (if outer.depth > c.depth then
      [{ dimension := DimKind.depth, actual := outer.depth, max := c.depth }] else [])

/-- `calculateCarcassDimensions` from `carcass.ts`.  `dividerCount` is
`columns.length - 1` as a signed integer, matching the JavaScript numeric
subtraction. -/
def calculateCarcassDimensions (config : ChestConfig) : CarcassDimensions :=
  let sideThickness := config.woodAssignments.carcassSides.actual
  let topBottomThickness := config.woodAssignments.carcassTopBottom.actual
  let dividerThickness := config.woodAssignments.carcassDividers.actual
  let backThickness := config.woodAssignments.carcassBack.actual
  let totalOpeningWidths := (config.columns.map (·.openingWidth)).sum
  let dividerCount : ℚ := ((config.columns.length : ℤ) - 1 : ℤ)
  let innerWidth := totalOpeningWidths + dividerCount * dividerThickness
  let outerWidth := sideThickness + innerWidth + sideThickness
  let carcassInnerHeight :=
    maxOfList (config.columns.map (fun col => getColumnInnerHeight col config))
  let outerHeight := topBottomThickness + carcassInnerHeight + topBottomThickness
  let innerDepth := config.slideSpec.length + config.drawerBackClearance
  let outerDepth := innerDepth + backThickness
  { outerWidth := outerWidth
    outerHeight := outerHeight
    outerDepth := outerDepth
    innerWidth := innerWidth
    innerDepth := innerDepth
    constraintViolations :=
      checkConstraintViolations
        { width := outerWidth, height := outerHeight, depth := outerDepth }
        config.constraints }

/-- `getCarcassPieces` from `carcass.ts`: top, bottom, two sides, the
dividers (when any), the back panel, and per-column horizontal-rail
groups when rails are enabled. -/
def getCarcassPieces (config : ChestConfig) (carcass : CarcassDimensions) : List CutPiece :=
  let verticalPanelHeight :=
    carcass.outerHeight - config.woodAssignments.carcassTopBottom.actual * 2
  let dividerCount := config.columns.length - 1
  let base : List CutPiece :=
    [{ id := "carcass-top", label := "Carcass Top",
       width := carcass.innerWidth, height := carcass.innerDepth,
       thickness := config.woodAssignments.carcassTopBottom, quantity := 1 },
     { id := "carcass-bottom", label := "Carcass Bottom",
       width := carcass.innerWidth, height := carcass.innerDepth,
       thickness := config.woodAssignments.carcassTopBottom, quantity := 1 },
     { id := "carcass-sides", label := "Carcass Side",
       width := carcass.innerDepth, height := verticalPanelHeight,
       thickness := config.woodAssignments.carcassSides, quantity := 2 }] ++
    (if dividerCount > 0 then
      [{ id := "carcass-dividers", label := "Vertical Divider",
         width := carcass.innerDepth, height := verticalPanelHeight,
         thickness := config.woodAssignments.carcassDividers, quantity := dividerCount }]
     else []) ++
    [{ id := "carcass-back", label := "Back Panel",
       width := carcass.outerWidth, height := carcass.outerHeight,
       thickness := config.woodAssignments.carcassBack, quantity := 1 }]
  let rails : List CutPiece :=
    if config.horizontalRails.enabled then
      (config.columns.enum.filterMap (fun ic =>
        let colRailCount := ic.2.rows.length - 1
        if colRailCount > 0 then
          some
            { id := "horizontal-rails-col-" ++ toString ic.1,
              label :=
                if config.columns.length > 1 then
                  "Horizontal Rail (Col " ++ toString (ic.1 + 1) ++ ")"
                else "Horizontal Rail",
              width := ic.2.openingWidth,
              height := config.horizontalRails.width,
              thickness := config.horizontalRails.thickness,
              quantity := colRailCount }
        else none))
    else []
  base ++ rails

/-! ## drawer.ts -/

/-- The wood choices resolved by `getDrawerWood` in `drawer.ts`. -/
structure DrawerWood where
  sides : WoodThickness
  frontBack : WoodThickness
  bottom : WoodThickness
  face : WoodThickness
deriving DecidableEq, Repr

/-- `getDrawerWood` from `drawer.ts`: per-row overrides apply only when
`advancedWoodMode` is enabled; otherwise the global assignments win. -/
def getDrawerWood (row : DrawerRow) (config : ChestConfig) : DrawerWood :=
  let base := config.woodAssignments
  let override := if config.advancedWoodMode then row.woodOverride else none
  { sides := ((override.bind (·.sides)).getD base.drawerSides)
    frontBack := ((override.bind (·.frontBack)).getD base.drawerFrontBack)
    bottom := ((override.bind (·.bottom)).getD base.drawerBottom)
    face := ((override.bind (·.face)).getD base.drawerFace) }

/-- `ConstructionResult` from `drawer.ts`. -/
structure ConstructionResult where
  sideHeight : ℚ
  boxOuterHeight : ℚ
  bottomWidth : ℚ
  bottomDepth : ℚ
  usableInteriorHeight : ℚ
  usableInteriorDepth : ℚ
deriving DecidableEq, Repr

/-- `BoxParams` from `drawer.ts`. -/
structure BoxParams where
  openingHeight : ℚ
  verticalClearance : ℚ
  boxOuterWidth : ℚ
  boxOuterDepth : ℚ
  sideThickness : ℚ
  frontBackThickness : ℚ
  bottomThickness : ℚ
  dadoGrooveDepth : ℚ
  dadoGrooveOffset : ℚ
deriving DecidableEq, Repr

/-- `calculateDadoResult` from `drawer.ts`. -/
def calculateDadoResult (p : BoxParams) : ConstructionResult :=
  let sideHeight := p.openingHeight - p.verticalClearance
  let frontBackLength := p.boxOuterWidth - 2 * p.sideThickness
  { sideHeight := sideHeight
    boxOuterHeight := sideHeight
    bottomWidth := frontBackLength + 2 * p.dadoGrooveDepth
    bottomDepth := p.boxOuterDepth - 2 * p.frontBackThickness + 2 * p.dadoGrooveDepth
    usableInteriorHeight := sideHeight - p.dadoGrooveOffset - p.bottomThickness
    usableInteriorDepth := p.boxOuterDepth - 2 * p.frontBackThickness }

/-- `calculateButtThroughSidesResult` from `drawer.ts`. -/
def calculateButtThroughSidesResult (p : BoxParams) : ConstructionResult :=
  let sideHeight := p.openingHeight - p.verticalClearance
  { sideHeight := sideHeight
    boxOuterHeight := sideHeight
    bottomWidth := p.boxOuterWidth - 2 * p.sideThickness
    bottomDepth := p.boxOuterDepth - 2 * p.frontBackThickness
    usableInteriorHeight := sideHeight - p.bottomThickness
    usableInteriorDepth := p.boxOuterDepth - 2 * p.frontBackThickness }

/-- `calculateButtThroughBottomResult` from `drawer.ts`. -/
def calculateButtThroughBottomResult (p : BoxParams) : ConstructionResult :=
  let sideHeight := p.openingHeight - p.verticalClearance - p.bottomThickness
  { sideHeight := sideHeight
    boxOuterHeight := sideHeight + p.bottomThickness
    bottomWidth := p.boxOuterWidth
    bottomDepth := p.boxOuterDepth
    usableInteriorHeight := sideHeight
    usableInteriorDepth := p.boxOuterDepth - 2 * p.frontBackThickness }

/-- `getConstructionStrategy` from `drawer.ts`: dispatch on the
construction tag. -/
def getConstructionStrategy (construction : DrawerBoxConstruction) :
    BoxParams → ConstructionResult :=
  match construction with
  | .dado => calculateDadoResult
  | .buttThroughSides => calculateButtThroughSidesResult
  | .buttThroughBottom => calculateButtThroughBottomResult

/-- `collectWarnings` from `drawer.ts`: a `slide-height` warning when the
opening height is below the slide's minimum mounting height, and a
`negative-dimension` warning when any computed dimension is ≤ 0.  (The
source never emits a `slide-length` warning, although that tag exists in
its `DrawerWarning` type.) -/
def collectWarnings (dims : DrawerBoxDimensions) (config : ChestConfig)
    (openingHeight : ℚ) : List DrawerWarning :=
  (if openingHeight < config.slideSpec.minMountingHeight then
    [{ type := DrawerWarningType.slideHeight,
       message := "Opening height " ++ toString openingHeight ++
         " is less than minimum slide mounting height " ++
         toString config.slideSpec.minMountingHeight }]
   else []) ++
  (if [dims.boxOuterWidth, dims.boxOuterHeight, dims.boxOuterDepth,
       dims.bottomWidth, dims.bottomDepth, dims.sideHeight,
       dims.frontBackHeight, dims.usableInteriorWidth,
       dims.usableInteriorHeight, dims.usableInteriorDepth].any (· ≤ 0) then
    [{ type := DrawerWarningType.negativeDimension,
       message := "One or more calculated dimensions are zero or negative" }]
   else [])

/-- `findRowIndex` from `drawer.ts` (`findIndex` by row id; the JavaScript
`-1` not-found sentinel is irrelevant here because the resulting index is
never read by `calculateFaceDimensions`). -/
def findRowIndex (column : Column) (row : DrawerRow) : ℕ :=
  column.rows.findIdx (fun r => r.id = row.id)

/-- `findColumnIndex` from `drawer.ts`. -/
def findColumnIndex (config : ChestConfig) (column : Column) : ℕ :=
  config.columns.findIdx (fun c => c.id = column.id)

/-- `calculateOverlayFaceWidth` from `drawer.ts`: a single-column chest
overlays both carcass sides; with several columns every face uniformly
gets one divider thickness, regardless of the column's position (the
`columnIndex` parameter is ignored by the source). -/
def calculateOverlayFaceWidth (column : Column) (_columnIndex : ℕ)
    (config : ChestConfig) : ℚ :=
  let dividerThickness := config.woodAssignments.carcassDividers.actual
  let reveal := config.insetRevealGap
  if config.columns.length = 1 then
    column.openingWidth + 2 * config.woodAssignments.carcassSides.actual - reveal
  else
    column.openingWidth + dividerThickness - reveal

/-- `calculateOverlayFaceHeight` from `drawer.ts`: a single-row column
gets the opening height minus the reveal; otherwise every row uniformly
gets one rail thickness (zero when rails are disabled), regardless of the
row's position. -/
def calculateOverlayFaceHeight (row : DrawerRow) (_rowIndex : ℕ)
    (column : Column) (config : ChestConfig) : ℚ :=
  let reveal := config.insetRevealGap
  let railHeight :=
    if config.horizontalRails.enabled then config.horizontalRails.thickness.actual else 0
  if column.rows.length = 1 then
    row.openingHeight - reveal
  else
    row.openingHeight + railHeight - reveal

/-- The `{ width, height }` pair returned by `calculateFaceDimensions`. -/
structure FaceDims where
  width : ℚ
  height : ℚ
deriving DecidableEq, Repr

/-- `calculateFaceDimensions` from `drawer.ts`. -/
def calculateFaceDimensions (row : DrawerRow) (column : Column)
    (rowIndex columnIndex : ℕ) (config : ChestConfig) : FaceDims :=
  if config.drawerStyle = DrawerStyle.inset then
    { width := column.openingWidth - 2 * config.insetRevealGap
      height := row.openingHeight - 2 * config.insetRevealGap }
  else
    { width := calculateOverlayFaceWidth column columnIndex config
      height := calculateOverlayFaceHeight row rowIndex column config }

/-- `calculateDrawerBox` from `drawer.ts`. -/
def calculateDrawerBox (row : DrawerRow) (column : Column)
    (config : ChestConfig) : DrawerBoxDimensions :=
  let wood := getDrawerWood row config
  let boxOuterWidth := column.openingWidth - 2 * config.slideSpec.clearancePerSide
  let boxOuterDepth := config.slideSpec.length
  let frontBackLength := boxOuterWidth - 2 * wood.sides.actual
  let params : BoxParams :=
    { openingHeight := row.openingHeight
      verticalClearance := config.drawerVerticalClearance
      boxOuterWidth := boxOuterWidth
      boxOuterDepth := boxOuterDepth
      sideThickness := wood.sides.actual
      frontBackThickness := wood.frontBack.actual
      bottomThickness := wood.bottom.actual
      dadoGrooveDepth := config.dadoGrooveDepth
      dadoGrooveOffset := config.dadoGrooveOffset }
  let result := getConstructionStrategy row.construction params
  let face :=
    calculateFaceDimensions row column (findRowIndex column row)
      (findColumnIndex config column) config
  let dims : DrawerBoxDimensions :=
    { rowId := row.id
      columnId := column.id
      boxOuterWidth := boxOuterWidth
      boxOuterHeight := result.boxOuterHeight
      boxOuterDepth := boxOuterDepth
      usableInteriorWidth := boxOuterWidth - 2 * wood.sides.actual
      usableInteriorHeight := result.usableInteriorHeight
      usableInteriorDepth := result.usableInteriorDepth
      sideLength := boxOuterDepth
      sideHeight := result.sideHeight
      frontBackLength := frontBackLength
      frontBackHeight := result.sideHeight
      bottomWidth := roundUpToNearestEighth result.bottomWidth
      bottomDepth := roundUpToNearestEighth result.bottomDepth
      faceWidth := roundUpToNearestEighth face.width
      faceHeight := roundUpToNearestEighth face.height
      warnings := [] }
  { dims with warnings := collectWarnings dims config row.openingHeight }

/-- `getDrawerPieces` from `drawer.ts`: two sides, a front, a back, a
bottom and a face for one drawer box. -/
def getDrawerPieces (box : DrawerBoxDimensions) (row : DrawerRow)
    (config : ChestConfig) : List CutPiece :=
  let wood := getDrawerWood row config
  [{ id := box.columnId ++ "-" ++ box.rowId ++ "-side",
     label := "Drawer " ++ box.columnId ++ "-" ++ box.rowId ++ " Side",
     width := box.sideLength, height := box.sideHeight,
     thickness := wood.sides, quantity := 2 },
   { id := box.columnId ++ "-" ++ box.rowId ++ "-front",
     label := "Drawer " ++ box.columnId ++ "-" ++ box.rowId ++ " Front",
     width := box.frontBackLength, height := box.frontBackHeight,
     thickness := wood.frontBack, quantity := 1 },
   { id := box.columnId ++ "-" ++ box.rowId ++ "-back",
     label := "Drawer " ++ box.columnId ++ "-" ++ box.rowId ++ " Back",
     width := box.frontBackLength, height := box.frontBackHeight,
     thickness := wood.frontBack, quantity := 1 },
   { id := box.columnId ++ "-" ++ box.rowId ++ "-bottom",
     label := "Drawer " ++ box.columnId ++ "-" ++ box.rowId ++ " Bottom",
     width := box.bottomWidth, height := box.bottomDepth,
     thickness := wood.bottom, quantity := 1 },
   { id := box.columnId ++ "-" ++ box.rowId ++ "-face",
     label := "Drawer " ++ box.columnId ++ "-" ++ box.rowId ++ " Face",
     width := box.faceWidth, height := box.faceHeight,
     thickness := wood.face, quantity := 1 }]

/-! ## cutlist.ts -/

/-- `pieceKey` from `cutlist.ts`.  The source builds the string
`` `${thickness.id}|${width}|${height}` ``; since the decimal renderings
of the two numbers never contain `|`, equality of those key strings is
equivalent to equality of the (thickness id, width, height) triple (parse
the string from the right: the last two `|`-separated segments are the
pipe-free number renderings, the remainder is the id).  The key is
therefore modelled as that triple. -/
def pieceKey (piece : CutPiece) : String × ℚ × ℚ :=
  (piece.thickness.id, piece.width, piece.height)

/-- All pieces of the chest before aggregation: the carcass piece list
followed by every drawer's piece list, in column-major row order —
the `allPieces` array of `aggregateCutPieces` in `cutlist.ts`. -/
def allChestPieces (config : ChestConfig) : List CutPiece :=
  let carcass := calculateCarcassDimensions config
  getCarcassPieces config carcass ++
    (config.columns.flatMap (fun column =>
      column.rows.flatMap (fun row =>
        getDrawerPieces (calculateDrawerBox row column config) row config)))

/-- One step of the merge loop in `aggregateCutPieces`: if some already
merged piece has the same key, add this piece's quantity to it (the map
keeps its insertion position); otherwise append a copy of the piece.
The JavaScript `Map` iterates in insertion order, which the list order
models. -/
def insertPiece (acc : List CutPiece) (piece : CutPiece) : List CutPiece :=
  if acc.any (fun p => pieceKey p = pieceKey piece) then
    acc.map (fun p =>
      if pieceKey p = pieceKey piece then
        { p with quantity := p.quantity + piece.quantity }
      else p)
  else
    acc ++ [piece]

/-- `aggregateCutPieces` from `cutlist.ts`. -/
def aggregateCutPieces (config : ChestConfig) : List CutPiece :=
  (allChestPieces config).foldl insertPiece []

/-! ## bin-packing.ts -/

/-- `FreeRect` from `bin-packing.ts`. -/
structure FreeRect where
  x : ℚ
  y : ℚ
  width : ℚ
  height : ℚ
deriving DecidableEq, Repr

/-- `FitResult` from `bin-packing.ts`. -/
structure FitResult where
  rectIndex : ℕ
  rotated : Bool
  leftover : ℚ
deriving DecidableEq, Repr

/-- The update step of `findBestFit`'s `best` variable: a candidate
replaces the incumbent only when its leftover is strictly smaller, so
ties keep the earliest candidate. -/
def considerFit (best : Option FitResult) (cand : FitResult) : Option FitResult :=
  match best with
  | none => some cand
  | some b => if cand.leftover < b.leftover then some cand else some b

/-- One iteration of `findBestFit`'s loop over the indexed free
rectangles: try the unrotated orientation, then (when allowed) the
rotated one. -/
def findBestFitStep (pieceW pieceH : ℚ) (allowRotation : Bool)
    (best : Option FitResult) (ir : ℕ × FreeRect) : Option FitResult :=
  let i := ir.1
  let rect := ir.2
  let best1 :=
    if pieceW ≤ rect.width ∧ pieceH ≤ rect.height then
      considerFit best
        { rectIndex := i, rotated := false,
          leftover := rect.width * rect.height - pieceW * pieceH }
    else best
  if allowRotation = true ∧ pieceH ≤ rect.width ∧ pieceW ≤ rect.height then
    considerFit best1
      { rectIndex := i, rotated := true,
        leftover := rect.width * rect.height - pieceW * pieceH }
  else best1

/-- `findBestFit` from `bin-packing.ts`: scan the free rectangles in
order, trying the unrotated orientation before the rotated one, and keep
the candidate with the smallest leftover area (`rect area − piece area`).
-/
def findBestFit (pieceW pieceH _kerf : ℚ) (freeRects : List FreeRect)
    (allowRotation : Bool) : Option FitResult :=
  freeRects.enum.foldl (findBestFitStep pieceW pieceH allowRotation) none

/-- `guillotineSplit` from `bin-packing.ts`: subtract the placed piece
(plus kerf on its right and bottom) from the free rectangle, producing 0,
1 or 2 remainder rectangles; when both remainders are positive, the split
direction is the one whose larger resulting rectangle has the greater
area. -/
def guillotineSplit (rect : FreeRect) (placedW placedH kerf : ℚ) : List FreeRect :=
  let rightW := rect.width - placedW - kerf
  let bottomH := rect.height - placedH - kerf
  if rightW ≤ 0 ∧ bottomH ≤ 0 then []
  else if rightW ≤ 0 then
    [{ x := rect.x, y := rect.y + placedH + kerf, width := rect.width, height := bottomH }]
  else if bottomH ≤ 0 then
    [{ x := rect.x + placedW + kerf, y := rect.y, width := rightW, height := rect.height }]
  else
    let horizontalSplitLarger := max (rect.width * bottomH) (rightW * placedH)
    let verticalSplitLarger := max (rightW * rect.height) (placedW * bottomH)
    let split :=
      if verticalSplitLarger ≤ horizontalSplitLarger then
        [{ x := rect.x, y := rect.y + placedH + kerf,
           width := rect.width, height := bottomH },
         { x := rect.x + placedW + kerf, y := rect.y,
           width := rightW, height := placedH }]
      else
        [{ x := rect.x + placedW + kerf, y := rect.y,
           width := rightW, height := rect.height },
         { x := rect.x, y := rect.y + placedH + kerf,
           width := placedW, height := bottomH }]
    split.filter (fun r => r.width > 0 ∧ r.height > 0)

/-- `ExpandedPiece` from `bin-packing.ts`: one physical instance of a
quantified cut piece. -/
structure ExpandedPiece where
  piece : CutPiece
  width : ℚ
  height : ℚ
deriving DecidableEq, Repr

/-- `expandPieces` from `bin-packing.ts`: `quantity` instances per piece.
-/
def expandPieces (pieces : List CutPiece) : List ExpandedPiece :=
  pieces.flatMap (fun piece =>
    List.replicate piece.quantity
      { piece := piece, width := piece.width, height := piece.height })

/-- The loop state of `fillSheet`: the mutable `freeRects`, `placements`
and `remaining` arrays. -/
structure FillState where
  freeRects : List FreeRect
  placements : List PlacedPiece
  remaining : List ExpandedPiece
deriving Repr

/-- One iteration of `fillSheet`'s loop over the items: find the best
fit; if none, defer the item; otherwise place it at the chosen free
rectangle's origin and splice the guillotine split of that rectangle into
the free list at the same index. -/
def fillStep (kerfWidth : ℚ) (allowRotation : Bool) (st : FillState)
    (item : ExpandedPiece) : FillState :=
  match findBestFit item.width item.height kerfWidth st.freeRects allowRotation with
  | none => { st with remaining := st.remaining ++ [item] }
  | some fit =>
    match st.freeRects[fit.rectIndex]? with
    | none => st
    | some rect =>
      let placedW := if fit.rotated then item.height else item.width
      let placedH := if fit.rotated then item.width else item.height
      { freeRects :=
          st.freeRects.take fit.rectIndex ++
            guillotineSplit rect placedW placedH kerfWidth ++
            st.freeRects.drop (fit.rectIndex + 1)
        placements :=
          st.placements ++
            [{ piece := item.piece, x := rect.x, y := rect.y, rotated := fit.rotated }]
        remaining := st.remaining }

/-- `FillResult` from `bin-packing.ts`. -/
structure FillResult where
  placements : List PlacedPiece
  remaining : List ExpandedPiece
deriving Repr

/-- `fillSheet` from `bin-packing.ts`: start from one free rectangle
covering the whole sheet and fold `fillStep` over the items. -/
def fillSheet (items : List ExpandedPiece) (sheet : StockSheet)
    (kerfWidth : ℚ) (allowRotation : Bool) : FillResult :=
  let st := items.foldl (fillStep kerfWidth allowRotation)
    { freeRects := [{ x := 0, y := 0, width := sheet.width, height := sheet.height }]
      placements := []
      remaining := [] }
  { placements := st.placements, remaining := st.remaining }

/-- `buildLayout` from `bin-packing.ts`. -/
def buildLayout (sheet : StockSheet) (placements : List PlacedPiece) : SheetLayout :=
  let totalArea := sheet.width * sheet.height
  let usedArea := placements.foldl (fun sum p =>
    let w := if p.rotated then p.piece.height else p.piece.width
    let h := if p.rotated then p.piece.width else p.piece.height
    sum + w * h) 0
  { sheet := sheet
    placements := placements
    wastePercentage := (totalArea - usedArea) / totalArea * 100
    usedArea := usedArea
    totalArea := totalArea }

/-- Every `fillStep` either defers the item, places it, or (in the
unreachable missing-rectangle guard) drops it, so placements and
remaining together never outnumber the items processed. -/
theorem fillStep_len (kerfWidth : ℚ) (allowRotation : Bool) (st : FillState)
    (item : ExpandedPiece) :
    (fillStep kerfWidth allowRotation st item).placements.length +
      (fillStep kerfWidth allowRotation st item).remaining.length ≤
    st.placements.length + st.remaining.length + 1 := by
  unfold fillStep
  cases findBestFit item.width item.height kerfWidth st.freeRects allowRotation with
  | none => simp; omega
  | some fit =>
    cases h : st.freeRects[fit.rectIndex]? with
    | none => simp [h]
    | some rect => simp [h]; omega

/-- Folding `fillStep` over items grows placements + remaining by at most
one per item. -/
theorem fillFold_len (kerfWidth : ℚ) (allowRotation : Bool)
    (items : List ExpandedPiece) (st : FillState) :
    (items.foldl (fillStep kerfWidth allowRotation) st).placements.length +
      (items.foldl (fillStep kerfWidth allowRotation) st).remaining.length ≤
    st.placements.length + st.remaining.length + items.length := by
  induction items generalizing st with
  | nil => simp
  | cons item rest ih =>
    have h1 := fillStep_len kerfWidth allowRotation st item
    have h2 := ih (fillStep kerfWidth allowRotation st item)
    simp only [List.foldl_cons, List.length_cons]
    omega

/-- `fillSheet` never reports more placements plus leftovers than items
given. -/
theorem fillSheet_len (items : List ExpandedPiece) (sheet : StockSheet)
    (kerfWidth : ℚ) (allowRotation : Bool) :
    (fillSheet items sheet kerfWidth allowRotation).placements.length +
      (fillSheet items sheet kerfWidth allowRotation).remaining.length ≤
    items.length := by
  have h := fillFold_len kerfWidth allowRotation items
    { freeRects := [{ x := 0, y := 0, width := sheet.width, height := sheet.height }]
      placements := []
      remaining := [] }
  simpa [fillSheet] using h

/-- When a pass places at least one piece, strictly fewer items remain —
the termination measure of `packPieces`'s outer loop. -/
theorem fillSheet_remaining_lt (items : List ExpandedPiece) (sheet : StockSheet)
    (kerfWidth : ℚ) (allowRotation : Bool)
    (h : (fillSheet items sheet kerfWidth allowRotation).placements ≠ []) :
    (fillSheet items sheet kerfWidth allowRotation).remaining.length < items.length := by
  have hlen := fillSheet_len items sheet kerfWidth allowRotation
  have hpos : 0 < (fillSheet items sheet kerfWidth allowRotation).placements.length :=
    List.length_pos.mpr h
  omega

/-- The `while (unplaced.length > 0)` loop of `packPieces`: fill one
sheet; stop (without a layout) if nothing was placed; record the layout;
stop if no progress was made; otherwise recurse on the leftovers.
Recursion is on the number of unplaced instances, which
`fillSheet_remaining_lt` shows strictly decreases. -/
def packLoop (sheet : StockSheet) (kerfWidth : ℚ) (allowRotation : Bool) :
    List ExpandedPiece → List SheetLayout
  | [] => []
  | u :: us =>
    let r := fillSheet (u :: us) sheet kerfWidth allowRotation
    if h : r.placements = [] then []
    else if r.remaining.length = (u :: us).length then
      [buildLayout sheet r.placements]
    else
      buildLayout sheet r.placements ::
        packLoop sheet kerfWidth allowRotation r.remaining
termination_by l => l.length
decreasing_by
  have := fillSheet_remaining_lt (u :: us) sheet kerfWidth allowRotation h
  simpa using this

/-- A structurally recursive twin of `packLoop` with an explicit pass
budget.  `packLoop_eq_fuel` shows it agrees with `packLoop` whenever the
budget covers the number of unplaced instances, so the budget-exhaustion
base case is unreachable; the twin exists because structural recursion is
kernel-computable, which the concrete packing scenarios need. -/
def packLoopFuel (sheet : StockSheet) (kerfWidth : ℚ) (allowRotation : Bool) :
    ℕ → List ExpandedPiece → List SheetLayout
  | _, [] => []
  | 0, _ :: _ => []
  | fuel + 1, u :: us =>
    let r := fillSheet (u :: us) sheet kerfWidth allowRotation
    if r.placements = [] then []
    else if r.remaining.length = (u :: us).length then
      [buildLayout sheet r.placements]
    else
      buildLayout sheet r.placements ::
        packLoopFuel sheet kerfWidth allowRotation fuel r.remaining

/-- `packLoop` agrees with its fuelled twin on any sufficient budget. -/
theorem packLoop_eq_fuel (sheet : StockSheet) (kerfWidth : ℚ)
    (allowRotation : Bool) (fuel : ℕ) :
    ∀ l : List ExpandedPiece, l.length ≤ fuel →
      packLoop sheet kerfWidth allowRotation l =
        packLoopFuel sheet kerfWidth allowRotation fuel l := by
  induction fuel with
  | zero =>
    intro l h
    have : l = [] := List.length_eq_zero.mp (Nat.le_zero.mp h)
    subst this
    simp [packLoop, packLoopFuel]
  | succ n ih =>
    intro l h
    match l with
    | [] => simp [packLoop, packLoopFuel]
    | u :: us =>
      rw [packLoop, packLoopFuel]
      by_cases hp : (fillSheet (u :: us) sheet kerfWidth allowRotation).placements = []
      · simp [hp]
      · have hlt := fillSheet_remaining_lt (u :: us) sheet kerfWidth allowRotation hp
        have hle : (fillSheet (u :: us) sheet kerfWidth allowRotation).remaining.length ≤ n := by
          simp only [List.length_cons] at hlt h
          omega
        simp only [hp, dite_false, if_false, dif_neg, not_false_iff]
        by_cases hr :
            (fillSheet (u :: us) sheet kerfWidth allowRotation).remaining.length =
              (u :: us).length
        · simp [hr]
        · simp [hr, ih _ hle]

/-- Stable insertion of an instance into a list sorted by area
descending: the new element passes elements of strictly smaller area and
stops before any element of equal or larger area, so equal-area elements
keep their original relative order. -/
def insertByAreaDesc (x : ExpandedPiece) : List ExpandedPiece → List ExpandedPiece
  | [] => [x]
  | y :: ys =>
    if y.width * y.height < x.width * x.height then x :: y :: ys
    else y :: insertByAreaDesc x ys

/-- The `expanded.sort((a, b) => b.width * b.height - a.width * a.height)`
call of `packPieces`: JavaScript's `Array.prototype.sort` is stable, and
a stable sort's output is uniquely determined by the comparator, so the
stable insertion sort below is an exact model. -/
def sortByAreaDesc (l : List ExpandedPiece) : List ExpandedPiece :=
  l.foldl (fun acc x => insertByAreaDesc x acc) []

/-- `packPieces` from `bin-packing.ts` (the source defaults
`allowRotation` to `true`; callers that omit it pass `true` here). -/
def packPieces (pieces : List CutPiece) (sheet : StockSheet) (kerfWidth : ℚ)
    (allowRotation : Bool) : List SheetLayout :=
  packLoop sheet kerfWidth allowRotation (sortByAreaDesc (expandPieces pieces))

/-! ## Concrete fixtures (mirroring the repository's test fixtures) -/

/-- 3/4" plywood, actual thickness 23/32". -/
def PLY_3_4 : WoodThickness :=
  { id := "ply-3/4", nominal := "3/4 plywood", actual := 23/32, material := "plywood" }

/-- 1/2" plywood, actual thickness 15/32". -/
def PLY_1_2 : WoodThickness :=
  { id := "ply-1/2", nominal := "1/2 plywood", actual := 15/32, material := "plywood" }

/-- 1/4" plywood, actual thickness 1/4". -/
def PLY_1_4 : WoodThickness :=
  { id := "ply-1/4", nominal := "1/4 plywood", actual := 1/4, material := "plywood" }

/-- A 6"-opening dado row, as in the repository's drawer tests. -/
def sampleRow : DrawerRow :=
  { id := "row-1", openingHeight := 6, binHeightUnits := 4,
    construction := DrawerBoxConstruction.dado, woodOverride := none }

/-- A single-row 14"-opening column. -/
def sampleColumn : Column :=
  { id := "col-1", openingWidth := 14, gridWidthUnits := 7, rows := [sampleRow] }

/-- The configuration used by the repository's drawer tests: one column,
one 6" dado row, overlay faces, 18" slides, no horizontal rails. -/
def sampleConfig : ChestConfig :=
  { name := "Test Chest"
    unit := MeasureUnit.inches
    constraints := none
    columns := [sampleColumn]
    drawerStyle := DrawerStyle.overlay
    defaultConstruction := DrawerBoxConstruction.dado
    defaultRowHeight := 6
    defaultGridWidthUnits := 7
    defaultBinHeightUnits := 4
    woodAssignments :=
      { carcassTopBottom := PLY_3_4, carcassSides := PLY_3_4,
        carcassDividers := PLY_3_4, carcassBack := PLY_1_4,
        horizontalRails := PLY_3_4, drawerSides := PLY_1_2,
        drawerFrontBack := PLY_1_2, drawerBottom := PLY_1_4,
        drawerFace := PLY_3_4 }
    advancedWoodMode := false
    slideSpec := { length := 18, clearancePerSide := 1/2, minMountingHeight := 7/4 }
    horizontalRails := { enabled := false, thickness := PLY_3_4, width := 3 }
    kerfWidth := 1/8
    dadoGrooveDepth := 1/4
    dadoGrooveOffset := 3/8
    overlayOverlap := 3/8
    insetRevealGap := 1/16
    drawerVerticalClearance := 3/4
    drawerBackClearance := 1/2 }

/-- A second 14"-opening column, used for multi-column scenarios. -/
def sampleColumn2 : Column :=
  { id := "col-2", openingWidth := 14, gridWidthUnits := 7,
    rows := [{ sampleRow with id := "row-2" }] }

/-- `sampleConfig` with two columns (each an edge column). -/
def twoColConfig : ChestConfig :=
  { sampleConfig with columns := [sampleColumn, sampleColumn2] }

/-! ## Claim C1: carcass dimensions -/

/-- The C1 property of `calculateCarcassDimensions`, stated with the
specification's formulas. -/
def carcassClaim (config : ChestConfig) : Prop :=
  (calculateCarcassDimensions config).outerWidth =
      config.woodAssignments.carcassSides.actual +
      (config.columns.map (·.openingWidth)).sum +
      ((config.columns.length : ℚ) - 1) * config.woodAssignments.carcassDividers.actual +
      config.woodAssignments.carcassSides.actual ∧
  (calculateCarcassDimensions config).outerHeight =
      config.woodAssignments.carcassTopBottom.actual +
      maxOfList (config.columns.map (fun col => getColumnInnerHeight col config)) +
      config.woodAssignments.carcassTopBottom.actual ∧
  (∀ col ∈ config.columns,
    getColumnInnerHeight col config =
      (col.rows.map (·.openingHeight)).sum +
      (if config.horizontalRails.enabled = true ∧ 1 < col.rows.length then
        ((col.rows.length - 1 : ℕ) : ℚ) * config.horizontalRails.thickness.actual
      else 0)) ∧
  (calculateCarcassDimensions config).innerDepth =
      config.slideSpec.length + config.drawerBackClearance ∧
  (calculateCarcassDimensions config).outerDepth =
      (calculateCarcassDimensions config).innerDepth +
      config.woodAssignments.carcassBack.actual

/-- C1: for every chest configuration with at least one column,
`calculateCarcassDimensions` returns outer width
`side + Σ openingWidths + (numColumns − 1) × divider + side`; outer height
two top/bottom thicknesses around the maximum column inner height, where
a column's inner height is its row-opening sum plus `(numRows − 1) × rail`
exactly when horizontal rails are enabled and the column has more than
one row; inner depth `slide length + drawer back clearance`; and outer
depth `inner depth + back thickness`. -/
theorem carcass_dimensions_spec (config : ChestConfig)
    (h : config.columns ≠ []) : carcassClaim config := by
  unfold carcassClaim calculateCarcassDimensions
  refine ⟨by push_cast; ring, rfl, ?_, rfl, rfl⟩
  intro col _
  unfold getColumnInnerHeight
  by_cases he : config.horizontalRails.enabled
  · by_cases hlen : col.rows.length ≤ 1
    · have : ¬(1 < col.rows.length) := by omega
      simp [he, hlen, this]
    · have : 1 < col.rows.length := by omega
      simp [he, hlen, this]
  · simp [he]

/-- Witness for C1 at the test configuration. -/
theorem carcass_dimensions_spec_witness :
    sampleConfig.columns ≠ [] ∧ carcassClaim sampleConfig :=
  ⟨by simp [sampleConfig], carcass_dimensions_spec sampleConfig (by simp [sampleConfig])⟩

/-! ## Claim C3: usable interior across construction methods -/

/-- C3: with the same opening, clearances and thicknesses and a
non-negative dado groove offset, the three construction methods of
`calculateDrawerBox` agree on `usableInteriorWidth` (always
`boxOuterWidth − 2 × drawer side thickness`) and order
`usableInteriorHeight` as butt-through-bottom ≥ butt-through-sides ≥
dado. -/
theorem usable_interior_construction_ordering (row : DrawerRow)
    (column : Column) (config : ChestConfig)
    (h : 0 ≤ config.dadoGrooveOffset) :
    let dadoBox := calculateDrawerBox
      { row with construction := DrawerBoxConstruction.dado } column config
    let sidesBox := calculateDrawerBox
      { row with construction := DrawerBoxConstruction.buttThroughSides } column config
    let bottomBox := calculateDrawerBox
      { row with construction := DrawerBoxConstruction.buttThroughBottom } column config
    (dadoBox.usableInteriorWidth =
        dadoBox.boxOuterWidth - 2 * (getDrawerWood row config).sides.actual ∧
      sidesBox.usableInteriorWidth = dadoBox.usableInteriorWidth ∧
      bottomBox.usableInteriorWidth = dadoBox.usableInteriorWidth) ∧
    sidesBox.usableInteriorHeight ≤ bottomBox.usableInteriorHeight ∧
    dadoBox.usableInteriorHeight ≤ sidesBox.usableInteriorHeight := by
  refine ⟨⟨rfl, rfl, rfl⟩, ?_, ?_⟩
  · simp only [calculateDrawerBox, getConstructionStrategy,
      calculateButtThroughSidesResult, calculateButtThroughBottomResult,
      getDrawerWood]
    linarith
  · simp only [calculateDrawerBox, getConstructionStrategy,
      calculateDadoResult, calculateButtThroughSidesResult, getDrawerWood]
    linarith

/-- Witness for C3 at the test configuration. -/
theorem usable_interior_construction_ordering_witness :
    0 ≤ sampleConfig.dadoGrooveOffset ∧
      ((calculateDrawerBox
          { sampleRow with construction := DrawerBoxConstruction.dado }
          sampleColumn sampleConfig).usableInteriorWidth =
        (calculateDrawerBox
          { sampleRow with construction := DrawerBoxConstruction.dado }
          sampleColumn sampleConfig).boxOuterWidth -
          2 * (getDrawerWood sampleRow sampleConfig).sides.actual ∧
      (calculateDrawerBox
          { sampleRow with construction := DrawerBoxConstruction.buttThroughSides }
          sampleColumn sampleConfig).usableInteriorWidth =
        (calculateDrawerBox
          { sampleRow with construction := DrawerBoxConstruction.dado }
          sampleColumn sampleConfig).usableInteriorWidth ∧
      (calculateDrawerBox
          { sampleRow with construction := DrawerBoxConstruction.buttThroughBottom }
          sampleColumn sampleConfig).usableInteriorWidth =
        (calculateDrawerBox
          { sampleRow with construction := DrawerBoxConstruction.dado }
          sampleColumn sampleConfig).usableInteriorWidth) ∧
      (calculateDrawerBox
          { sampleRow with construction := DrawerBoxConstruction.buttThroughSides }
          sampleColumn sampleConfig).usableInteriorHeight ≤
        (calculateDrawerBox
          { sampleRow with construction := DrawerBoxConstruction.buttThroughBottom }
          sampleColumn sampleConfig).usableInteriorHeight ∧
      (calculateDrawerBox
          { sampleRow with construction := DrawerBoxConstruction.dado }
          sampleColumn sampleConfig).usableInteriorHeight ≤
        (calculateDrawerBox
          { sampleRow with construction := DrawerBoxConstruction.buttThroughSides }
          sampleColumn sampleConfig).usableInteriorHeight :=
  ⟨by norm_num [sampleConfig],
    usable_interior_construction_ordering sampleRow sampleColumn sampleConfig
      (by norm_num [sampleConfig])⟩

/-! ## Claim C7: grid-unit round trip -/

/-- C7: the opening width derived for `g` grid units (rounded up to the
nearest 1/8") leaves an interior width of at least `g × 42` mm after the
drawer sides and slide clearances are subtracted, so re-decomposing it
with `gridfinityGridUnits` yields at least `g` units — the ceiling
rounding never under-sizes. -/
theorem openingWidth_roundtrip (g : ℕ) (s c : ℚ)
    (hg : 0 < g) (hs : 0 ≤ s) (hc : 0 ≤ c) :
    (g : ℚ) * 42 ≤ toMm (openingWidthForGridUnits g s c - 2 * s - 2 * c)
        MeasureUnit.inches ∧
    (g : ℤ) ≤ gridfinityGridUnits
        (toMm (openingWidthForGridUnits g s c - 2 * s - 2 * c)
          MeasureUnit.inches) := by
  have hW : (g : ℚ) * 42 / (254/10) + 2 * s + 2 * c ≤
      openingWidthForGridUnits g s c := by
    have h1 := Int.le_ceil
      (((g : ℚ) * GRID_UNIT_MM / MM_PER_INCH + 2 * s + 2 * c) * 8)
    unfold openingWidthForGridUnits roundUpToNearestEighth GRID_UNIT_MM MM_PER_INCH
    unfold GRID_UNIT_MM MM_PER_INCH at h1
    linarith
  have hMM : (g : ℚ) * 42 ≤
      (openingWidthForGridUnits g s c - 2 * s - 2 * c) * (254/10) := by
    linarith
  constructor
  · unfold toMm MM_PER_INCH
    linarith
  · rw [gridfinityGridUnits, Int.le_floor]
    unfold toMm GRID_UNIT_MM MM_PER_INCH
    rw [le_div_iff (by norm_num)]
    push_cast
    linarith

/-- Witness for C7 at 3 grid units, 15/32" drawer sides, 1/2" clearance.
-/
theorem openingWidth_roundtrip_witness :
    0 < 3 ∧ (0:ℚ) ≤ 15/32 ∧ (0:ℚ) ≤ 1/2 ∧
      ((3 : ℚ) * 42 ≤ toMm (openingWidthForGridUnits 3 (15/32) (1/2) -
          2 * (15/32) - 2 * (1/2)) MeasureUnit.inches ∧
        ((3 : ℕ) : ℤ) ≤ gridfinityGridUnits
          (toMm (openingWidthForGridUnits 3 (15/32) (1/2) -
            2 * (15/32) - 2 * (1/2)) MeasureUnit.inches)) := by
  refine ⟨by norm_num, by norm_num, by norm_num, ?_⟩
  have h := openingWidth_roundtrip 3 (15/32) (1/2) (by norm_num)
    (by norm_num) (by norm_num)
  constructor
  · have := h.1
    push_cast at this ⊢
    exact this
  · exact h.2

/-! ## Claim C9: slide-length warning -/

/-- C9: the warnings of `calculateDrawerBox` contain a `slide-length`
warning exactly when the box outer depth exceeds the configured slide
length.  Both sides are always false: the source sets
`boxOuterDepth = slideSpec.length`, which never exceeds itself, and
`collectWarnings` never emits the `slide-length` tag (it exists only in
the `DrawerWarning` type), so the biconditional holds vacuously. -/
theorem slide_length_warning_iff (row : DrawerRow) (column : Column)
    (config : ChestConfig) :
    ((calculateDrawerBox row column config).warnings.any
        (fun w => w.type = DrawerWarningType.slideLength)) = true ↔
      config.slideSpec.length < (calculateDrawerBox row column config).boxOuterDepth := by
  constructor
  · intro h
    exfalso
    simp only [calculateDrawerBox, collectWarnings] at h
    rcases List.any_eq_true.mp h with ⟨w, hw, htype⟩
    rcases List.mem_append.mp hw with hmem | hmem
    · split at hmem
      · simp at hmem
        subst hmem
        simp at htype
      · simp at hmem
    · split at hmem
      · simp at hmem
        subst hmem
        simp at htype
      · simp at hmem
  · intro h
    exfalso
    simp only [calculateDrawerBox] at h
    exact absurd h (lt_irrefl _)

/-! ## Claim C2: overlay face sizing -/

/-- C2 counterexample: in a two-column chest every column is an edge
column (exactly one neighbor), yet `calculateFaceDimensions` does not
return the claimed edge formula
`opening + sideThickness + dividerThickness/2 − revealGap/2`
(the source sizes all multi-column faces uniformly as
`opening + dividerThickness − revealGap`). -/
theorem overlay_face_edge_rule_counterexample :
    twoColConfig.drawerStyle = DrawerStyle.overlay ∧
    twoColConfig.columns.length = 2 ∧
    (calculateFaceDimensions sampleRow sampleColumn 0 0 twoColConfig).width ≠
      sampleColumn.openingWidth +
        twoColConfig.woodAssignments.carcassSides.actual +
        twoColConfig.woodAssignments.carcassDividers.actual / 2 -
        twoColConfig.insetRevealGap / 2 := by
  refine ⟨rfl, rfl, ?_⟩
  have hval : (calculateFaceDimensions sampleRow sampleColumn 0 0 twoColConfig).width =
      14 + 23/32 - 1/16 := by
    unfold calculateFaceDimensions
    rw [if_neg (show ¬(twoColConfig.drawerStyle = DrawerStyle.inset) from
      fun hc => by cases hc)]
    show calculateOverlayFaceWidth sampleColumn 0 twoColConfig = _
    unfold calculateOverlayFaceWidth
    rw [if_neg (show ¬(twoColConfig.columns.length = 1) from by
      simp [twoColConfig, sampleConfig])]
    norm_num [twoColConfig, sampleConfig, sampleColumn, PLY_3_4]
  rw [hval]
  norm_num [twoColConfig, sampleConfig, sampleColumn, PLY_3_4]

/-- C2 (amended): for drawer style overlay, `calculateFaceDimensions`
sizes faces position-independently: width is
`opening + 2 × sideThickness − revealGap` for a single-column chest and
`opening + dividerThickness − revealGap` for any column of a multi-column
chest; height is `opening − revealGap` for a single-row column and
`opening + railThickness − revealGap` for any row of a multi-row column,
where railThickness is the horizontal-rail thickness when rails are
enabled and 0 otherwise; the reveal used is `insetRevealGap`. -/
theorem overlay_face_uniform_spec (row : DrawerRow) (column : Column)
    (rowIndex columnIndex : ℕ) (config : ChestConfig)
    (h : config.drawerStyle = DrawerStyle.overlay) :
    (calculateFaceDimensions row column rowIndex columnIndex config).width =
      (if config.columns.length = 1 then
        column.openingWidth + 2 * config.woodAssignments.carcassSides.actual -
          config.insetRevealGap
      else
        column.openingWidth + config.woodAssignments.carcassDividers.actual -
          config.insetRevealGap) ∧
    (calculateFaceDimensions row column rowIndex columnIndex config).height =
      (if column.rows.length = 1 then
        row.openingHeight - config.insetRevealGap
      else
        row.openingHeight +
          (if config.horizontalRails.enabled then
            config.horizontalRails.thickness.actual
          else 0) -
          config.insetRevealGap) := by
  have hni : ¬(config.drawerStyle = DrawerStyle.inset) := by
    rw [h]; intro hc; cases hc
  constructor
  · simp only [calculateFaceDimensions, hni, if_false, calculateOverlayFaceWidth]
  · simp only [calculateFaceDimensions, hni, if_false, calculateOverlayFaceHeight]

/-- Witness for the amended C2 at the two-column test configuration. -/
theorem overlay_face_uniform_spec_witness :
    twoColConfig.drawerStyle = DrawerStyle.overlay ∧
      ((calculateFaceDimensions sampleRow sampleColumn 0 0 twoColConfig).width =
        (if twoColConfig.columns.length = 1 then
          sampleColumn.openingWidth +
            2 * twoColConfig.woodAssignments.carcassSides.actual -
            twoColConfig.insetRevealGap
        else
          sampleColumn.openingWidth +
            twoColConfig.woodAssignments.carcassDividers.actual -
            twoColConfig.insetRevealGap) ∧
      (calculateFaceDimensions sampleRow sampleColumn 0 0 twoColConfig).height =
        (if sampleColumn.rows.length = 1 then
          sampleRow.openingHeight - twoColConfig.insetRevealGap
        else
          sampleRow.openingHeight +
            (if twoColConfig.horizontalRails.enabled then
              twoColConfig.horizontalRails.thickness.actual
            else 0) -
            twoColConfig.insetRevealGap)) :=
  ⟨rfl, overlay_face_uniform_spec sampleRow sampleColumn 0 0 twoColConfig rfl⟩

/-! ## Claim C6: cut-piece aggregation -/

/-- Total quantity of pieces in `l` whose key equals `K`. -/
def qsum (K : String × ℚ × ℚ) (l : List CutPiece) : ℕ :=
  ((l.filter (fun q => pieceKey q = K)).map (·.quantity)).sum

/-- The C6 property of `aggregateCutPieces`: keys agree exactly on the
(thickness id, width, height) triple; output keys are pairwise distinct;
for every key the output quantity equals the summed input quantity; and
the output carries exactly the input's keys. -/
def aggregateClaim (config : ChestConfig) : Prop :=
  (∀ a b : CutPiece,
    pieceKey a = pieceKey b ↔
      (a.thickness.id = b.thickness.id ∧ a.width = b.width ∧ a.height = b.height)) ∧
  (aggregateCutPieces config).Pairwise (fun a b => pieceKey a ≠ pieceKey b) ∧
  (∀ K, qsum K (aggregateCutPieces config) = qsum K (allChestPieces config)) ∧
  (∀ p ∈ aggregateCutPieces config,
    pieceKey p ∈ (allChestPieces config).map pieceKey) ∧
  (∀ q ∈ allChestPieces config,
    pieceKey q ∈ (aggregateCutPieces config).map pieceKey)

/-- Updating a piece's quantity does not change its key. -/
theorem pieceKey_quantity_update (p : CutPiece) (n : ℕ) :
    pieceKey { p with quantity := n } = pieceKey p := rfl

/-- When no element of `xs` has key `k`, the merge-update map over `xs`
is the identity. -/
theorem map_update_eq_self (xs : List CutPiece) (p : CutPiece)
    (h : ∀ q ∈ xs, pieceKey q ≠ pieceKey p) :
    (xs.map (fun q =>
      if pieceKey q = pieceKey p then
        { q with quantity := q.quantity + p.quantity }
      else q)) = xs := by
  induction xs with
  | nil => rfl
  | cons x rest ih =>
    have hx : pieceKey x ≠ pieceKey p := h x (List.mem_cons_self x rest)
    simp only [List.map_cons, if_neg hx]
    rw [ih (fun q hq => h q (List.mem_cons_of_mem x hq))]

/-- The merge-update map preserves the list of keys. -/
theorem map_update_keys (xs : List CutPiece) (p : CutPiece) :
    (xs.map (fun q =>
      if pieceKey q = pieceKey p then
        { q with quantity := q.quantity + p.quantity }
      else q)).map pieceKey = xs.map pieceKey := by
  rw [List.map_map]
  apply List.map_congr_left
  intro q _
  by_cases hq : pieceKey q = pieceKey p
  · show pieceKey (if pieceKey q = pieceKey p then _ else q) = pieceKey q
    rw [if_pos hq]
    exact pieceKey_quantity_update q _
  · show pieceKey (if pieceKey q = pieceKey p then _ else q) = pieceKey q
    rw [if_neg hq]

/-- `qsum` distributes over cons. -/
theorem qsum_cons (K : String × ℚ × ℚ) (x : CutPiece) (xs : List CutPiece) :
    qsum K (x :: xs) =
      (if pieceKey x = K then x.quantity else 0) + qsum K xs := by
  unfold qsum
  by_cases hx : pieceKey x = K
  · simp [List.filter_cons, hx]
  · simp [List.filter_cons, hx]

/-- `qsum` distributes over append. -/
theorem qsum_append (K : String × ℚ × ℚ) (l₁ l₂ : List CutPiece) :
    qsum K (l₁ ++ l₂) = qsum K l₁ + qsum K l₂ := by
  unfold qsum
  rw [List.filter_append, List.map_append, List.sum_append]

/-- Quantity sums after the merge-update map: the matching entry (unique
by key distinctness) absorbs the inserted quantity. -/
theorem qsum_map_update (p : CutPiece) (K : String × ℚ × ℚ) :
    ∀ xs : List CutPiece,
      xs.Pairwise (fun a b => pieceKey a ≠ pieceKey b) →
      (∃ w ∈ xs, pieceKey w = pieceKey p) →
      qsum K (xs.map (fun q =>
        if pieceKey q = pieceKey p then
          { q with quantity := q.quantity + p.quantity }
        else q)) =
      qsum K xs + (if pieceKey p = K then p.quantity else 0) := by
  intro xs
  induction xs with
  | nil =>
    rintro _ ⟨w, hwmem, _⟩
    cases hwmem
  | cons x rest ih =>
    intro hd hw
    rcases List.pairwise_cons.mp hd with ⟨hx, hrest⟩
    by_cases hxp : pieceKey x = pieceKey p
    · have hnone : ∀ q ∈ rest, pieceKey q ≠ pieceKey p := fun q hq hk =>
        (hx q hq) (hxp.trans hk.symm)
      simp only [List.map_cons, if_pos hxp]
      rw [map_update_eq_self rest p hnone, qsum_cons, qsum_cons]
      by_cases hK : pieceKey p = K
      · rw [if_pos ((pieceKey_quantity_update x _).trans (hxp.trans hK)),
          if_pos (hxp.trans hK), if_pos hK]
        dsimp only
        omega
      · have hxnK : ¬(pieceKey x = K) := fun hc => hK (hxp.symm.trans hc)
        rw [if_neg (fun hc => hxnK ((pieceKey_quantity_update x _).symm.trans hc)),
          if_neg hxnK, if_neg hK]
        omega
    · rcases hw with ⟨w, hwmem, hkw⟩
      have hw' : ∃ w ∈ rest, pieceKey w = pieceKey p := by
        rcases List.mem_cons.mp hwmem with hcase | hcase
        · exact absurd (hcase ▸ hkw) hxp
        · exact ⟨w, hcase, hkw⟩
      simp only [List.map_cons, if_neg hxp]
      rw [qsum_cons, qsum_cons, ih hrest hw']
      omega

/-- The effect of one `insertPiece` on keys, distinctness and quantity
sums, given distinct keys in the accumulator. -/
theorem insertPiece_invariant (acc : List CutPiece) (p : CutPiece)
    (hd : acc.Pairwise (fun a b => pieceKey a ≠ pieceKey b)) :
    (insertPiece acc p).Pairwise (fun a b => pieceKey a ≠ pieceKey b) ∧
    (∀ K, qsum K (insertPiece acc p) =
      qsum K acc + (if pieceKey p = K then p.quantity else 0)) ∧
    (insertPiece acc p).map pieceKey ⊆ acc.map pieceKey ++ [pieceKey p] ∧
    acc.map pieceKey ++ [pieceKey p] ⊆ (insertPiece acc p).map pieceKey := by
  unfold insertPiece
  by_cases hany : acc.any (fun q => pieceKey q = pieceKey p) = true
  · rw [if_pos hany]
    rcases List.any_eq_true.mp hany with ⟨w, hw, hkw⟩
    have hkw' : pieceKey w = pieceKey p := by simpa using hkw
    refine ⟨?_, ?_, ?_, ?_⟩
    · rw [List.pairwise_map]
      refine List.Pairwise.imp_of_mem ?_ hd
      intro a b _ _ hab hcontra
      have hfa : pieceKey (if pieceKey a = pieceKey p then
          { a with quantity := a.quantity + p.quantity } else a) = pieceKey a := by
        by_cases hcase : pieceKey a = pieceKey p
        · rw [if_pos hcase]; rfl
        · rw [if_neg hcase]
      have hfb : pieceKey (if pieceKey b = pieceKey p then
          { b with quantity := b.quantity + p.quantity } else b) = pieceKey b := by
        by_cases hcase : pieceKey b = pieceKey p
        · rw [if_pos hcase]; rfl
        · rw [if_neg hcase]
      exact hab ((hfa.symm.trans hcontra).trans hfb)
    · intro K
      exact qsum_map_update p K acc hd ⟨w, hw, hkw'⟩
    · rw [map_update_keys]
      intro k hk
      exact List.mem_append_left _ hk
    · rw [map_update_keys]
      intro k hk
      rcases List.mem_append.mp hk with hk | hk
      · exact hk
      · have : k = pieceKey p := by simpa using hk
        subst this
        rw [← hkw']
        exact List.mem_map_of_mem pieceKey hw
  · rw [if_neg hany]
    have hno : ∀ q ∈ acc, pieceKey q ≠ pieceKey p := by
      intro q hq hk
      exact (List.any_eq_true.not.mp hany) ⟨q, hq, by simpa using hk⟩
    refine ⟨?_, ?_, ?_, ?_⟩
    · rw [List.pairwise_append]
      exact ⟨hd, List.pairwise_singleton _ _,
        fun a ha b hb => by
          have : b = p := by simpa using hb
          subst this
          exact hno a ha⟩
    · intro K
      rw [qsum_append]
      unfold qsum
      by_cases hK : pieceKey p = K <;> simp [List.filter_cons, hK]
    · rw [List.map_append]
      exact fun k hk => hk
    · rw [List.map_append]
      exact fun k hk => hk

/-- Folding `insertPiece` preserves distinct keys, conserves per-key
quantity sums, and produces exactly the keys of the accumulator plus the
processed list. -/
theorem foldl_insertPiece_invariant (l : List CutPiece) :
    ∀ acc : List CutPiece,
      acc.Pairwise (fun a b => pieceKey a ≠ pieceKey b) →
      (l.foldl insertPiece acc).Pairwise (fun a b => pieceKey a ≠ pieceKey b) ∧
      (∀ K, qsum K (l.foldl insertPiece acc) = qsum K acc + qsum K l) ∧
      (l.foldl insertPiece acc).map pieceKey ⊆ acc.map pieceKey ++ l.map pieceKey ∧
      acc.map pieceKey ++ l.map pieceKey ⊆ (l.foldl insertPiece acc).map pieceKey := by
  induction l with
  | nil =>
    intro acc hd
    refine ⟨hd, fun K => by simp [qsum], by simp, by simp⟩
  | cons p rest ih =>
    intro acc hd
    obtain ⟨h1, h2, h3, h4⟩ := insertPiece_invariant acc p hd
    obtain ⟨g1, g2, g3, g4⟩ := ih (insertPiece acc p) h1
    simp only [List.foldl_cons]
    refine ⟨g1, ?_, ?_, ?_⟩
    · intro K
      rw [g2 K, h2 K, qsum_cons]
      omega
    · intro k hk
      have := g3 hk
      rcases List.mem_append.mp this with hk' | hk'
      · have := h3 hk'
        rcases List.mem_append.mp this with hk'' | hk''
        · exact List.mem_append_left _ hk''
        · have : k = pieceKey p := by simpa using hk''
          subst this
          simp
      · simp only [List.map_cons, List.mem_append, List.mem_cons]
        right; right
        exact hk'
    · intro k hk
      apply g4
      rcases List.mem_append.mp hk with hk' | hk'
      · exact List.mem_append_left _ (h4 (List.mem_append_left _ hk'))
      · rcases List.mem_cons.mp hk' with hk'' | hk''
        · subst hk''
          exact List.mem_append_left _ (h4 (List.mem_append_right _ (by simp)))
        · exact List.mem_append_right _ hk''

/-- C6: `aggregateCutPieces` merges two input pieces exactly when they
share thickness identity, width and height (order-sensitive), leaves no
two output entries with the same key, and gives every output entry the
sum of the matching input quantities. -/
theorem aggregate_merge_spec (config : ChestConfig) : aggregateClaim config := by
  obtain ⟨h1, h2, h3, h4⟩ :=
    foldl_insertPiece_invariant (allChestPieces config) [] (List.Pairwise.nil)
  refine ⟨?_, h1, ?_, ?_, ?_⟩
  · intro a b
    unfold pieceKey
    constructor
    · intro h
      exact ⟨congrArg Prod.fst h,
        congrArg (fun t => t.2.1) h, congrArg (fun t => t.2.2) h⟩
    · rintro ⟨hid, hw, hh⟩
      rw [Prod.ext_iff]
      exact ⟨hid, by rw [Prod.ext_iff]; exact ⟨hw, hh⟩⟩
  · intro K
    have := h2 K
    simpa [aggregateCutPieces, qsum] using this
  · intro p hp
    have : pieceKey p ∈ ([] : List CutPiece).map pieceKey ++
        (allChestPieces config).map pieceKey :=
      h3 (List.mem_map_of_mem pieceKey hp)
    simpa using this
  · intro q hq
    apply h4
    simp only [List.map_nil, List.nil_append]
    exact List.mem_map_of_mem pieceKey hq

/-- Witness for C6 at the test configuration. -/
theorem aggregate_merge_spec_witness : aggregateClaim sampleConfig :=
  aggregate_merge_spec sampleConfig

/-! ## Claim C5: kerf packing scenario -/

/-- Two 24"×47" panels as one quantified cut piece. -/
def pieceTwo24x47 : CutPiece :=
  { id := "piece-24-47", label := "Half Width", width := 24, height := 47,
    thickness := PLY_3_4, quantity := 2 }

/-- A 48"×48" stock sheet. -/
def sheet48x48 : StockSheet :=
  { id := "test-sheet", label := "48 x 48", width := 48, height := 48,
    thickness := PLY_3_4 }

/-- `packPieces` in terms of its kernel-computable fuelled loop. -/
theorem packPieces_eq_fuel (pieces : List CutPiece) (sheet : StockSheet)
    (kerfWidth : ℚ) (allowRotation : Bool) :
    packPieces pieces sheet kerfWidth allowRotation =
      packLoopFuel sheet kerfWidth allowRotation
        (sortByAreaDesc (expandPieces pieces)).length
        (sortByAreaDesc (expandPieces pieces)) := by
  rw [packPieces, packLoop_eq_fuel _ _ _ _ _ le_rfl]

/-- C5: packing two 24×47 pieces on a 48×48 sheet yields one sheet
layout holding both placements at kerf 0, and two layouts of one
placement each at kerf 1/8. -/
theorem packPieces_kerf_scenario :
    (packPieces [pieceTwo24x47] sheet48x48 0 true).map
        (fun l => l.placements.length) = [2] ∧
    (packPieces [pieceTwo24x47] sheet48x48 (1/8) true).map
        (fun l => l.placements.length) = [1, 1] := by
  constructor
  · rw [packPieces_eq_fuel]
    norm_num [packLoopFuel, fillSheet, fillStep, findBestFit, findBestFitStep,
      considerFit, guillotineSplit, buildLayout, expandPieces, sortByAreaDesc,
      insertByAreaDesc, List.enum, List.enumFrom, pieceTwo24x47, sheet48x48,
      PLY_3_4, List.flatMap, List.replicate]
    simp
  · rw [packPieces_eq_fuel]
    norm_num [packLoopFuel, fillSheet, fillStep, findBestFit, findBestFitStep,
      considerFit, guillotineSplit, buildLayout, expandPieces, sortByAreaDesc,
      insertByAreaDesc, List.enum, List.enumFrom, pieceTwo24x47, sheet48x48,
      PLY_3_4, List.flatMap, List.replicate]

/-! ## Claim C8: termination and oversized pieces -/

/-- `findBestFit` on the single whole-sheet rectangle finds nothing for a
piece that fits in neither orientation. -/
theorem findBestFit_single_none (w h k : ℚ) (sheet : StockSheet) (rot : Bool)
    (h1 : ¬(w ≤ sheet.width ∧ h ≤ sheet.height))
    (h2 : ¬(h ≤ sheet.width ∧ w ≤ sheet.height)) :
    findBestFit w h k
      [{ x := 0, y := 0, width := sheet.width, height := sheet.height }] rot =
      none := by
  unfold findBestFit
  simp [findBestFitStep, h1, h2]

/-- When every item fails to fit the current free rectangles, the fill
fold leaves placements and free rectangles untouched and defers
everything. -/
theorem fillFold_none (k : ℚ) (rot : Bool) :
    ∀ (items : List ExpandedPiece) (st : FillState),
      (∀ it ∈ items, findBestFit it.width it.height k st.freeRects rot = none) →
      items.foldl (fillStep k rot) st =
        { st with remaining := st.remaining ++ items } := by
  intro items
  induction items with
  | nil => intro st _; simp
  | cons it rest ih =>
    intro st h
    rw [List.foldl_cons]
    have hstep : fillStep k rot st it = { st with remaining := st.remaining ++ [it] } := by
      unfold fillStep
      rw [h it (List.mem_cons_self it rest)]
    rw [hstep,
      ih { st with remaining := st.remaining ++ [it] }
        (fun x hx => h x (List.mem_cons_of_mem _ hx))]
    simp

/-- Instances survive `insertByAreaDesc` unchanged. -/
theorem mem_insertByAreaDesc {x y : ExpandedPiece} :
    ∀ {ys : List ExpandedPiece}, x ∈ insertByAreaDesc y ys → x = y ∨ x ∈ ys := by
  intro ys
  induction ys with
  | nil => intro hx; simpa [insertByAreaDesc] using hx
  | cons z zs ih =>
    intro hx
    unfold insertByAreaDesc at hx
    split at hx
    · rcases List.mem_cons.mp hx with hc | hc
      · exact Or.inl hc
      · exact Or.inr hc
    · rcases List.mem_cons.mp hx with hc | hc
      · exact Or.inr (hc ▸ List.mem_cons_self z zs)
      · rcases ih hc with hc' | hc'
        · exact Or.inl hc'
        · exact Or.inr (List.mem_cons_of_mem z hc')

/-- The stable area sort permutes its input: members are preserved. -/
theorem mem_sortByAreaDesc {x : ExpandedPiece} {l : List ExpandedPiece}
    (hx : x ∈ sortByAreaDesc l) : x ∈ l := by
  unfold sortByAreaDesc at hx
  suffices H : ∀ (l' : List ExpandedPiece) (acc : List ExpandedPiece),
      x ∈ l'.foldl (fun acc y => insertByAreaDesc y acc) acc →
      x ∈ acc ∨ x ∈ l' by
    rcases H l [] hx with hc | hc
    · cases hc
    · exact hc
  intro l'
  induction l' with
  | nil => intro acc h; exact Or.inl h
  | cons y ys ih =>
    intro acc h
    rw [List.foldl_cons] at h
    rcases ih _ h with hc | hc
    · rcases mem_insertByAreaDesc hc with hc' | hc'
      · exact Or.inr (hc' ▸ List.mem_cons_self y ys)
      · exact Or.inl hc'
    · exact Or.inr (List.mem_cons_of_mem y hc)

/-- C8: `packPieces` terminates — each pass of `fillSheet` partitions the
items it was given (never inventing placements), and a pass that places
anything strictly shrinks the remaining set — and a lone piece that is
larger than the stock sheet in both orientations produces zero sheet
layouts (so it appears in no layout) rather than crashing or looping. -/
theorem packPieces_oversized_terminates (piece : CutPiece)
    (sheet : StockSheet) (kerfWidth : ℚ) (allowRotation : Bool)
    (items : List ExpandedPiece)
    (h1 : ¬(piece.width ≤ sheet.width ∧ piece.height ≤ sheet.height))
    (h2 : ¬(piece.height ≤ sheet.width ∧ piece.width ≤ sheet.height)) :
    ((fillSheet items sheet kerfWidth allowRotation).placements.length +
        (fillSheet items sheet kerfWidth allowRotation).remaining.length ≤
        items.length ∧
      ((fillSheet items sheet kerfWidth allowRotation).placements ≠ [] →
        (fillSheet items sheet kerfWidth allowRotation).remaining.length <
          items.length)) ∧
    packPieces [piece] sheet kerfWidth allowRotation = [] := by
  refine ⟨⟨fillSheet_len items sheet kerfWidth allowRotation,
    fillSheet_remaining_lt items sheet kerfWidth allowRotation⟩, ?_⟩
  rw [packPieces]
  have hdims : ∀ it ∈ sortByAreaDesc (expandPieces [piece]),
      it.width = piece.width ∧ it.height = piece.height := by
    intro it hit
    have hmem := mem_sortByAreaDesc hit
    simp only [expandPieces, List.flatMap_cons, List.flatMap_nil,
      List.append_nil] at hmem
    have := List.eq_of_mem_replicate hmem
    rw [this]
    exact ⟨rfl, rfl⟩
  have hfill : ∀ (l : List ExpandedPiece),
      (∀ it ∈ l, it.width = piece.width ∧ it.height = piece.height) →
      fillSheet l sheet kerfWidth allowRotation =
        { placements := [], remaining := l } := by
    intro l hl
    have hnone : ∀ it ∈ l,
        findBestFit it.width it.height kerfWidth
          (({ freeRects :=
                [{ x := 0, y := 0, width := sheet.width, height := sheet.height }],
              placements := [], remaining := [] } : FillState)).freeRects
          allowRotation = none := by
      intro it hit
      obtain ⟨hw, hh⟩ := hl it hit
      show findBestFit it.width it.height kerfWidth
        [{ x := 0, y := 0, width := sheet.width, height := sheet.height }]
        allowRotation = none
      rw [hw, hh]
      exact findBestFit_single_none piece.width piece.height kerfWidth sheet
        allowRotation h1 h2
    simp only [fillSheet]
    rw [fillFold_none kerfWidth allowRotation l _ hnone]
    simp
  match hs : sortByAreaDesc (expandPieces [piece]) with
  | [] => rw [packLoop]
  | u :: us =>
    rw [packLoop]
    have := hfill (u :: us) (hs ▸ hdims)
    simp [this]

/-- A 100"×100" piece, larger than a 48"×96" sheet in both orientations.
-/
def pieceBig : CutPiece :=
  { id := "piece-100-100", label := "Too Big", width := 100, height := 100,
    thickness := PLY_3_4, quantity := 1 }

/-- A 48"×96" stock sheet. -/
def sheet48x96 : StockSheet :=
  { id := "full-sheet", label := "48 x 96", width := 48, height := 96,
    thickness := PLY_3_4 }

/-- Witness for C8: the oversized 100×100 piece on a 48×96 sheet. -/
theorem packPieces_oversized_terminates_witness :
    ¬(pieceBig.width ≤ sheet48x96.width ∧ pieceBig.height ≤ sheet48x96.height) ∧
    ¬(pieceBig.height ≤ sheet48x96.width ∧ pieceBig.width ≤ sheet48x96.height) ∧
    (((fillSheet [] sheet48x96 (1/8) true).placements.length +
        (fillSheet [] sheet48x96 (1/8) true).remaining.length ≤
        ([] : List ExpandedPiece).length ∧
      ((fillSheet [] sheet48x96 (1/8) true).placements ≠ [] →
        (fillSheet [] sheet48x96 (1/8) true).remaining.length <
          ([] : List ExpandedPiece).length)) ∧
      packPieces [pieceBig] sheet48x96 (1/8) true = []) := by
  have h1 : ¬(pieceBig.width ≤ sheet48x96.width ∧
      pieceBig.height ≤ sheet48x96.height) := by
    norm_num [pieceBig, sheet48x96]
  have h2 : ¬(pieceBig.height ≤ sheet48x96.width ∧
      pieceBig.width ≤ sheet48x96.height) := by
    norm_num [pieceBig, sheet48x96]
  exact ⟨h1, h2,
    packPieces_oversized_terminates pieceBig sheet48x96 (1/8) true [] h1 h2⟩

/-! ## Claim C10: rotation flag with rotation disallowed -/

/-- A predicate on the payload survives a fold that steps through
`Option`, provided each step preserves it. -/
theorem foldl_option_pred {α β : Type} (step : Option β → α → Option β)
    (P : β → Prop)
    (hstep : ∀ acc a, (∀ f, acc = some f → P f) → ∀ f, step acc a = some f → P f) :
    ∀ (l : List α) (init : Option β),
      (∀ f, init = some f → P f) → ∀ f, l.foldl step init = some f → P f := by
  intro l
  induction l with
  | nil => intro init h f hf; exact h f hf
  | cons a rest ih => intro init h f hf; exact ih _ (hstep init a h) f hf

/-- `considerFit` yields either the candidate or the incumbent. -/
theorem considerFit_cases (best : Option FitResult) (cand : FitResult)
    (f : FitResult) (h : considerFit best cand = some f) :
    f = cand ∨ best = some f := by
  cases best with
  | none =>
    simp only [considerFit] at h
    injection h with h'
    exact Or.inl h'.symm
  | some b =>
    simp only [considerFit] at h
    by_cases hlt : cand.leftover < b.leftover
    · rw [if_pos hlt] at h
      injection h with h'
      exact Or.inl h'.symm
    · rw [if_neg hlt] at h
      injection h with h'
      exact Or.inr (by rw [h'])

/-- With rotation disallowed, `findBestFit` only ever selects unrotated
candidates. -/
theorem findBestFit_noRotation (w h k : ℚ) (fr : List FreeRect)
    (fit : FitResult) (hfit : findBestFit w h k fr false = some fit) :
    fit.rotated = false := by
  unfold findBestFit at hfit
  refine foldl_option_pred (findBestFitStep w h false) (fun f => f.rotated = false)
    ?_ fr.enum none (by intro f hf; cases hf) fit hfit
  intro acc a hacc f hf
  unfold findBestFitStep at hf
  simp only [Bool.false_eq_true, false_and, if_false] at hf
  split at hf
  · rcases considerFit_cases _ _ _ hf with hc | hc
    · rw [hc]
    · exact hacc f hc
  · exact hacc f hf

/-- Each `fillStep` leaves the remaining list unchanged or appends the
current item to it. -/
theorem fillStep_remaining_cases (k : ℚ) (rot : Bool) (st : FillState)
    (item : ExpandedPiece) :
    (fillStep k rot st item).remaining = st.remaining ∨
    (fillStep k rot st item).remaining = st.remaining ++ [item] := by
  unfold fillStep
  cases findBestFit item.width item.height k st.freeRects rot with
  | none => exact Or.inr rfl
  | some fit =>
    cases h : st.freeRects[fit.rectIndex]? with
    | none => simp [h]
    | some rect => simp [h]

/-- Deferred items all come from the processed items (or the initial
remaining list). -/
theorem fillFold_remaining_subset (k : ℚ) (rot : Bool) :
    ∀ (items : List ExpandedPiece) (st : FillState) (it : ExpandedPiece),
      it ∈ (items.foldl (fillStep k rot) st).remaining →
      it ∈ st.remaining ∨ it ∈ items := by
  intro items
  induction items with
  | nil => intro st it h; exact Or.inl h
  | cons a rest ih =>
    intro st it h
    rcases ih (fillStep k rot st a) it h with hc | hc
    · rcases fillStep_remaining_cases k rot st a with he | he
      · rw [he] at hc
        exact Or.inl hc
      · rw [he] at hc
        rcases List.mem_append.mp hc with hc' | hc'
        · exact Or.inl hc'
        · have : it = a := by simpa using hc'
          exact Or.inr (this ▸ List.mem_cons_self a rest)
    · exact Or.inr (List.mem_cons_of_mem a hc)

/-- `fillSheet` only defers items it was given. -/
theorem fillSheet_remaining_subset (items : List ExpandedPiece)
    (sheet : StockSheet) (k : ℚ) (rot : Bool) :
    ∀ it ∈ (fillSheet items sheet k rot).remaining, it ∈ items := by
  intro it hit
  simp only [fillSheet] at hit
  rcases fillFold_remaining_subset k rot items _ it hit with hc | hc
  · cases hc
  · exact hc

/-- Every layout `packLoop` emits is `buildLayout` of a non-empty
`fillSheet` pass over items drawn from the initial list; any layout
property provable from that holds of all emitted layouts. -/
theorem packLoop_layouts (sheet : StockSheet) (k : ℚ) (rot : Bool)
    (Q : ExpandedPiece → Prop) (P : SheetLayout → Prop)
    (hP : ∀ items : List ExpandedPiece, (∀ x ∈ items, Q x) →
      (fillSheet items sheet k rot).placements ≠ [] →
      P (buildLayout sheet (fillSheet items sheet k rot).placements)) :
    ∀ l : List ExpandedPiece, (∀ x ∈ l, Q x) →
      ∀ L ∈ packLoop sheet k rot l, P L := by
  have main : ∀ (n : ℕ) (l : List ExpandedPiece), l.length ≤ n →
      (∀ x ∈ l, Q x) → ∀ L ∈ packLoop sheet k rot l, P L := by
    intro n
    induction n with
    | zero =>
      intro l hl _ L hL
      have : l = [] := List.length_eq_zero.mp (Nat.le_zero.mp hl)
      subst this
      rw [packLoop] at hL
      cases hL
    | succ n ih =>
      intro l hl hQ L hL
      match l with
      | [] =>
        rw [packLoop] at hL
        cases hL
      | u :: us =>
        rw [packLoop] at hL
        split at hL
        · cases hL
        · rename_i hne
          have hQrem : ∀ x ∈ (fillSheet (u :: us) sheet k rot).remaining, Q x :=
            fun x hx => hQ x (fillSheet_remaining_subset (u :: us) sheet k rot x hx)
          split at hL
          · have : L = buildLayout sheet (fillSheet (u :: us) sheet k rot).placements := by
              simpa using hL
            subst this
            exact hP (u :: us) hQ hne
          · rcases List.mem_cons.mp hL with hc | hc
            · subst hc
              exact hP (u :: us) hQ hne
            · rename_i hprog
              have hlt := fillSheet_remaining_lt (u :: us) sheet k rot hne
              have hlen : (fillSheet (u :: us) sheet k rot).remaining.length ≤ n := by
                simp only [List.length_cons] at hlt hl
                omega
              exact ih _ hlen hQrem L hc
  intro l hQ L hL
  exact main l.length l le_rfl hQ L hL

/-- Each `fillStep` either leaves the state's placements unchanged, or
appends one placement taken from a successful best fit at the origin of
the free rectangle that fit selected. -/
theorem fillStep_placements_cases (k : ℚ) (rot : Bool) (st : FillState)
    (item : ExpandedPiece) :
    (fillStep k rot st item).placements = st.placements ∨
    ∃ fit rect,
      findBestFit item.width item.height k st.freeRects rot = some fit ∧
      st.freeRects[fit.rectIndex]? = some rect ∧
      (fillStep k rot st item).placements =
        st.placements ++ [PlacedPiece.mk item.piece rect.x rect.y fit.rotated] := by
  unfold fillStep
  cases hfit : findBestFit item.width item.height k st.freeRects rot with
  | none => exact Or.inl rfl
  | some fit =>
    cases hrect : st.freeRects[fit.rectIndex]? with
    | none =>
      left
      simp [hrect]
    | some rect =>
      refine Or.inr ⟨fit, rect, rfl, hrect, ?_⟩
      simp [hrect]

/-- The fill fold never flags a placement as rotated when rotation is
disallowed. -/
theorem fillFold_placements_noRotation (k : ℚ) :
    ∀ (items : List ExpandedPiece) (st : FillState),
      (∀ pl ∈ st.placements, pl.rotated = false) →
      ∀ pl ∈ (items.foldl (fillStep k false) st).placements, pl.rotated = false := by
  intro items
  induction items with
  | nil => intro st h; exact h
  | cons a rest ih =>
    intro st h
    refine ih (fillStep k false st a) ?_
    intro pl hpl
    rcases fillStep_placements_cases k false st a with hc | ⟨fit, rect, hfit, _, hc⟩
    · rw [hc] at hpl
      exact h pl hpl
    · rw [hc] at hpl
      rcases List.mem_append.mp hpl with hm | hm
      · exact h pl hm
      · have hpl' : pl = PlacedPiece.mk a.piece rect.x rect.y fit.rotated := by
          simpa using hm
        rw [hpl']
        exact findBestFit_noRotation a.width a.height k st.freeRects fit hfit

/-- C10: with `allowRotation = false`, every placed piece in every
layout returned by `packPieces` has its rotation flag `false`. -/
theorem packPieces_noRotation (pieces : List CutPiece) (sheet : StockSheet)
    (kerfWidth : ℚ) :
    ∀ L ∈ packPieces pieces sheet kerfWidth false,
      ∀ pl ∈ L.placements, pl.rotated = false := by
  intro L hL
  rw [packPieces] at hL
  refine packLoop_layouts sheet kerfWidth false (fun _ => True)
    (fun L => ∀ pl ∈ L.placements, pl.rotated = false) ?_
    (sortByAreaDesc (expandPieces pieces)) (fun _ _ => trivial) L hL
  intro items _ _
  show ∀ pl ∈ (buildLayout sheet (fillSheet items sheet kerfWidth false).placements).placements,
    pl.rotated = false
  intro pl hpl
  have hpl' : pl ∈ (fillSheet items sheet kerfWidth false).placements := hpl
  simp only [fillSheet] at hpl'
  exact fillFold_placements_noRotation kerfWidth items _ (by intro x hx; cases hx)
    pl hpl'

/-- A 40"×10" piece for the rotation-flag witness. -/
def wide40x10 : CutPiece :=
  { id := "piece-40-10", label := "Wide", width := 40, height := 10,
    thickness := PLY_3_4, quantity := 1 }

/-- A 48"×20" stock sheet. -/
def sheet48x20 : StockSheet :=
  { id := "sheet-48-20", label := "48 x 20", width := 48, height := 20,
    thickness := PLY_3_4 }

/-- The placement the packer produces for `wide40x10` on `sheet48x20`. -/
def widePlacement : PlacedPiece :=
  { piece := wide40x10, x := 0, y := 0, rotated := false }

/-- Witness for C10: the 40×10 piece packed without rotation on a 48×20
sheet lands in one concrete layout whose single placement is unrotated.
-/
theorem packPieces_noRotation_witness :
    buildLayout sheet48x20 [widePlacement] ∈
      packPieces [wide40x10] sheet48x20 0 false ∧
    widePlacement ∈ (buildLayout sheet48x20 [widePlacement]).placements ∧
    widePlacement.rotated = false := by
  have hpack : packPieces [wide40x10] sheet48x20 0 false =
      [buildLayout sheet48x20 [widePlacement]] := by
    rw [packPieces_eq_fuel]
    norm_num [packLoopFuel, fillSheet, fillStep, findBestFit, findBestFitStep,
      considerFit, guillotineSplit, buildLayout, expandPieces, sortByAreaDesc,
      insertByAreaDesc, List.enum, List.enumFrom, wide40x10, sheet48x20,
      widePlacement, PLY_3_4, List.flatMap, List.replicate]
  have hmemL : buildLayout sheet48x20 [widePlacement] ∈
      packPieces [wide40x10] sheet48x20 0 false := by
    rw [hpack]
    exact List.mem_singleton.mpr rfl
  have hmemP : widePlacement ∈ (buildLayout sheet48x20 [widePlacement]).placements :=
    List.mem_singleton.mpr rfl
  exact ⟨hmemL, hmemP,
    packPieces_noRotation [wide40x10] sheet48x20 0 _ hmemL widePlacement hmemP⟩

/-! ## Claim C4: packing invariants (geometry) -/

/-- Width of a placed piece's footprint (rotated dimensions when the
rotation flag is set). -/
def placedW (pl : PlacedPiece) : ℚ :=
  if pl.rotated then pl.piece.height else pl.piece.width

/-- Height of a placed piece's footprint. -/
def placedH (pl : PlacedPiece) : ℚ :=
  if pl.rotated then pl.piece.width else pl.piece.height

/-- Axis-aligned rectangles `(x₁, y₁, w₁, h₁)` and `(x₂, y₂, w₂, h₂)`
have disjoint interiors. -/
def RectDisj (x₁ y₁ w₁ h₁ x₂ y₂ w₂ h₂ : ℚ) : Prop :=
  ¬(x₁ < x₂ + w₂ ∧ x₂ < x₁ + w₁ ∧ y₁ < y₂ + h₂ ∧ y₂ < y₁ + h₁)

/-- Rectangle 1 lies inside rectangle 2. -/
def SubRect (x₁ y₁ w₁ h₁ x₂ y₂ w₂ h₂ : ℚ) : Prop :=
  x₂ ≤ x₁ ∧ y₂ ≤ y₁ ∧ x₁ + w₁ ≤ x₂ + w₂ ∧ y₁ + h₁ ≤ y₂ + h₂

/-- A placed piece's footprint lies within the sheet's bounds. -/
def placedInBounds (sheet : StockSheet) (pl : PlacedPiece) : Prop :=
  0 ≤ pl.x ∧ 0 ≤ pl.y ∧
  pl.x + placedW pl ≤ sheet.width ∧ pl.y + placedH pl ≤ sheet.height

/-- Two placed pieces have disjoint footprint interiors. -/
def placedDisjoint (a b : PlacedPiece) : Prop :=
  RectDisj a.x a.y (placedW a) (placedH a) b.x b.y (placedW b) (placedH b)

/-- A free rectangle lies within the sheet's bounds. -/
def rectInSheet (sheet : StockSheet) (r : FreeRect) : Prop :=
  0 ≤ r.x ∧ 0 ≤ r.y ∧ r.x + r.width ≤ sheet.width ∧ r.y + r.height ≤ sheet.height

/-- Two free rectangles have disjoint interiors. -/
def freeDisj (a b : FreeRect) : Prop :=
  RectDisj a.x a.y a.width a.height b.x b.y b.width b.height

/-- A free rectangle and a placed piece have disjoint interiors. -/
def freePlacedDisj (r : FreeRect) (pl : PlacedPiece) : Prop :=
  RectDisj r.x r.y r.width r.height pl.x pl.y (placedW pl) (placedH pl)

/-- Interior disjointness is symmetric. -/
theorem RectDisj.symm {x₁ y₁ w₁ h₁ x₂ y₂ w₂ h₂ : ℚ}
    (h : RectDisj x₁ y₁ w₁ h₁ x₂ y₂ w₂ h₂) :
    RectDisj x₂ y₂ w₂ h₂ x₁ y₁ w₁ h₁ :=
  fun ⟨c1, c2, c3, c4⟩ => h ⟨c2, c1, c4, c3⟩

/-- Shrinking the first rectangle preserves disjointness. -/
theorem RectDisj.mono_left {a₁ b₁ u₁ v₁ x₁ y₁ w₁ h₁ x₂ y₂ w₂ h₂ : ℚ}
    (hsub : SubRect a₁ b₁ u₁ v₁ x₁ y₁ w₁ h₁)
    (h : RectDisj x₁ y₁ w₁ h₁ x₂ y₂ w₂ h₂) :
    RectDisj a₁ b₁ u₁ v₁ x₂ y₂ w₂ h₂ := by
  rintro ⟨c1, c2, c3, c4⟩
  obtain ⟨s1, s2, s3, s4⟩ := hsub
  exact h ⟨by linarith, by linarith, by linarith, by linarith⟩

/-- Shrinking the second rectangle preserves disjointness. -/
theorem RectDisj.mono_right {x₁ y₁ w₁ h₁ a₂ b₂ u₂ v₂ x₂ y₂ w₂ h₂ : ℚ}
    (hsub : SubRect a₂ b₂ u₂ v₂ x₂ y₂ w₂ h₂)
    (h : RectDisj x₁ y₁ w₁ h₁ x₂ y₂ w₂ h₂) :
    RectDisj x₁ y₁ w₁ h₁ a₂ b₂ u₂ v₂ :=
  (RectDisj.mono_left hsub h.symm).symm

/-- A rectangle nested in an in-sheet rectangle is in the sheet. -/
theorem rectInSheet_of_subRect {sheet : StockSheet} {r q : FreeRect}
    (hsub : SubRect r.x r.y r.width r.height q.x q.y q.width q.height)
    (hq : rectInSheet sheet q) : rectInSheet sheet r := by
  obtain ⟨s1, s2, s3, s4⟩ := hsub
  obtain ⟨q1, q2, q3, q4⟩ := hq
  exact ⟨by linarith, by linarith, by linarith, by linarith⟩

/-- Every remainder rectangle of a guillotine split stays inside the
split rectangle and misses the placed footprint at the rectangle's
origin. -/
theorem guillotineSplit_spec (rect : FreeRect) (pw ph kerf : ℚ)
    (hk : 0 ≤ kerf) (hw : 0 ≤ pw) (hh : 0 ≤ ph) :
    ∀ r ∈ guillotineSplit rect pw ph kerf,
      SubRect r.x r.y r.width r.height rect.x rect.y rect.width rect.height ∧
      RectDisj r.x r.y r.width r.height rect.x rect.y pw ph := by
  intro r hr
  unfold guillotineSplit at hr
  by_cases h1 : rect.width - pw - kerf ≤ 0 ∧ rect.height - ph - kerf ≤ 0
  · rw [if_pos h1] at hr
    cases hr
  · rw [if_neg h1] at hr
    by_cases h2 : rect.width - pw - kerf ≤ 0
    · rw [if_pos h2] at hr
      have hr' : r = FreeRect.mk rect.x (rect.y + ph + kerf)
          rect.width (rect.height - ph - kerf) := by
        simpa using hr
      subst hr'
      dsimp only
      refine ⟨⟨by linarith, by linarith, by linarith, by linarith⟩, ?_⟩
      rintro ⟨c1, c2, c3, c4⟩
      linarith
    · rw [if_neg h2] at hr
      by_cases h3 : rect.height - ph - kerf ≤ 0
      · rw [if_pos h3] at hr
        have hr' : r = FreeRect.mk (rect.x + pw + kerf) rect.y
            (rect.width - pw - kerf) rect.height := by
          simpa using hr
        subst hr'
        dsimp only
        refine ⟨⟨by linarith, by linarith, by linarith, by linarith⟩, ?_⟩
        rintro ⟨c1, c2, c3, c4⟩
        linarith
      · rw [if_neg h3] at hr
        have hrw : 0 < rect.width - pw - kerf := by linarith [not_le.mp h2]
        have hrh : 0 < rect.height - ph - kerf := by linarith [not_le.mp h3]
        dsimp only at hr
        rw [List.mem_filter] at hr
        have hr' := hr.1
        split at hr'
        · rcases List.mem_cons.mp hr' with hc | hc
          · subst hc
            dsimp only
            refine ⟨⟨by linarith, by linarith, by linarith, by linarith⟩, ?_⟩
            rintro ⟨c1, c2, c3, c4⟩
            linarith
          · have hc' : r = FreeRect.mk (rect.x + pw + kerf) rect.y
                (rect.width - pw - kerf) ph := by
              simpa using hc
            subst hc'
            dsimp only
            refine ⟨⟨by linarith, by linarith, by linarith, by linarith⟩, ?_⟩
            rintro ⟨c1, c2, c3, c4⟩
            linarith
        · rcases List.mem_cons.mp hr' with hc | hc
          · subst hc
            dsimp only
            refine ⟨⟨by linarith, by linarith, by linarith, by linarith⟩, ?_⟩
            rintro ⟨c1, c2, c3, c4⟩
            linarith
          · have hc' : r = FreeRect.mk rect.x (rect.y + ph + kerf)
                pw (rect.height - ph - kerf) := by
              simpa using hc
            subst hc'
            dsimp only
            refine ⟨⟨by linarith, by linarith, by linarith, by linarith⟩, ?_⟩
            rintro ⟨c1, c2, c3, c4⟩
            linarith

/-- The (at most two) remainder rectangles of a guillotine split are
mutually disjoint. -/
theorem guillotineSplit_pairwise (rect : FreeRect) (pw ph kerf : ℚ)
    (hk : 0 ≤ kerf) :
    (guillotineSplit rect pw ph kerf).Pairwise freeDisj := by
  unfold guillotineSplit
  by_cases h1 : rect.width - pw - kerf ≤ 0 ∧ rect.height - ph - kerf ≤ 0
  · rw [if_pos h1]
    exact List.Pairwise.nil
  · rw [if_neg h1]
    by_cases h2 : rect.width - pw - kerf ≤ 0
    · rw [if_pos h2]
      exact List.pairwise_singleton _ _
    · rw [if_neg h2]
      by_cases h3 : rect.height - ph - kerf ≤ 0
      · rw [if_pos h3]
        exact List.pairwise_singleton _ _
      · rw [if_neg h3]
        dsimp only
        refine List.Pairwise.sublist (List.filter_sublist _) ?_
        split
        · refine List.pairwise_cons.mpr ⟨?_, List.pairwise_singleton _ _⟩
          intro b hb
          have hb' : b = FreeRect.mk (rect.x + pw + kerf) rect.y
              (rect.width - pw - kerf) ph := by
            simpa using hb
          subst hb'
          rintro ⟨c1, c2, c3, c4⟩
          dsimp only at c1 c2 c3 c4
          linarith
        · refine List.pairwise_cons.mpr ⟨?_, List.pairwise_singleton _ _⟩
          intro b hb
          have hb' : b = FreeRect.mk rect.x (rect.y + ph + kerf)
              pw (rect.height - ph - kerf) := by
            simpa using hb
          subst hb'
          rintro ⟨c1, c2, c3, c4⟩
          dsimp only at c1 c2 c3 c4
          linarith

/-- A fold preserving an option predicate, with membership information
about the traversed list. -/
theorem foldl_option_pred_mem {α β : Type} (step : Option β → α → Option β)
    (P : β → Prop) :
    ∀ (l : List α),
      (∀ acc a, a ∈ l → (∀ f, acc = some f → P f) → ∀ f, step acc a = some f → P f) →
      ∀ (init : Option β), (∀ f, init = some f → P f) →
      ∀ f, l.foldl step init = some f → P f := by
  intro l
  induction l with
  | nil => intro _ init h f hf; exact h f hf
  | cons a rest ih =>
    intro hstep init h f hf
    exact ih (fun acc b hb => hstep acc b (List.mem_cons_of_mem a hb)) _
      (hstep init a (List.mem_cons_self a rest) h) f hf

/-- A successful `findBestFit` points at an existing free rectangle that
the piece fits (in the orientation recorded by the rotation flag). -/
theorem findBestFit_spec (w h k : ℚ) (fr : List FreeRect) (rot : Bool)
    (fit : FitResult) (hfit : findBestFit w h k fr rot = some fit) :
    ∃ rect, fr[fit.rectIndex]? = some rect ∧
      (if fit.rotated then h ≤ rect.width ∧ w ≤ rect.height
       else w ≤ rect.width ∧ h ≤ rect.height) := by
  unfold findBestFit at hfit
  refine foldl_option_pred_mem (findBestFitStep w h rot)
    (fun f => ∃ rect, fr[f.rectIndex]? = some rect ∧
      (if f.rotated then h ≤ rect.width ∧ w ≤ rect.height
       else w ≤ rect.width ∧ h ≤ rect.height))
    fr.enum ?_ none (by intro f hf; cases hf) fit hfit
  intro acc a ha hacc f hf
  have hidx : fr[a.1]? = some a.2 := List.mem_enum_iff_getElem?.mp ha
  unfold findBestFitStep at hf
  dsimp only at hf
  split at hf
  · rename_i hcond2
    rcases considerFit_cases _ _ _ hf with hc | hc
    · subst hc
      exact ⟨a.2, hidx, by simpa using ⟨hcond2.2.1, hcond2.2.2⟩⟩
    · split at hc
      · rename_i hcond1
        rcases considerFit_cases _ _ _ hc with hc' | hc'
        · subst hc'
          exact ⟨a.2, hidx, by simpa using hcond1⟩
        · exact hacc f hc'
      · exact hacc f hc
  · split at hf
    · rename_i hcond1
      rcases considerFit_cases _ _ _ hf with hc | hc
      · subst hc
        exact ⟨a.2, hidx, by simpa using hcond1⟩
      · exact hacc f hc
    · exact hacc f hf

/-- The invariant maintained by `fillSheet`'s loop: free rectangles stay
inside the sheet, are mutually disjoint and disjoint from every
placement; placements stay inside the sheet and are mutually disjoint.
-/
def FillInv (sheet : StockSheet) (st : FillState) : Prop :=
  (∀ r ∈ st.freeRects, rectInSheet sheet r) ∧
  st.freeRects.Pairwise freeDisj ∧
  (∀ r ∈ st.freeRects, ∀ pl ∈ st.placements, freePlacedDisj r pl) ∧
  (∀ pl ∈ st.placements, placedInBounds sheet pl) ∧
  st.placements.Pairwise placedDisjoint

/-- One `fillStep` preserves the fill invariant: a deferred item changes
nothing, and a placed item occupies part of one free rectangle whose
guillotine remainders avoid both the placement and each other. -/
theorem fillStep_inv (sheet : StockSheet) (k : ℚ) (rot : Bool)
    (st : FillState) (item : ExpandedPiece)
    (hk : 0 ≤ k) (hw0 : 0 ≤ item.width) (hh0 : 0 ≤ item.height)
    (hpw : item.width = item.piece.width) (hph : item.height = item.piece.height)
    (hinv : FillInv sheet st) :
    FillInv sheet (fillStep k rot st item) := by
  unfold fillStep
  cases hfit : findBestFit item.width item.height k st.freeRects rot with
  | none => exact hinv
  | some fit =>
    dsimp only
    cases hget : st.freeRects[fit.rectIndex]? with
    | none => exact hinv
    | some rect =>
      obtain ⟨rect2, hget2, hcond⟩ :=
        findBestFit_spec item.width item.height k st.freeRects rot fit hfit
      rw [hget] at hget2
      rw [← Option.some.inj hget2] at hcond
      obtain ⟨hlt, hval⟩ := List.getElem?_eq_some.mp hget
      have hsplit : st.freeRects =
          st.freeRects.take fit.rectIndex ++
            rect :: st.freeRects.drop (fit.rectIndex + 1) := by
        conv_lhs => rw [← List.take_append_drop fit.rectIndex st.freeRects]
        rw [List.drop_eq_getElem_cons hlt, hval]
      have hfitW : (if fit.rotated then item.height else item.width) ≤ rect.width := by
        cases hrot : fit.rotated <;> rw [hrot] at hcond <;> simp at hcond ⊢ <;>
          exact hcond.1
      have hfitH : (if fit.rotated then item.width else item.height) ≤ rect.height := by
        cases hrot : fit.rotated <;> rw [hrot] at hcond <;> simp at hcond ⊢ <;>
          exact hcond.2
      have hpw0 : 0 ≤ (if fit.rotated then item.height else item.width) := by
        cases fit.rotated <;> simp [hw0, hh0]
      have hph0 : 0 ≤ (if fit.rotated then item.width else item.height) := by
        cases fit.rotated <;> simp [hw0, hh0]
      obtain ⟨inv1, inv2, inv3, inv4, inv5⟩ := hinv
      rw [hsplit] at inv1 inv2 inv3
      rw [List.pairwise_append] at inv2
      obtain ⟨Ptake, Pcons, Hcross⟩ := inv2
      rw [List.pairwise_cons] at Pcons
      obtain ⟨Hrectdrop, Pdrop⟩ := Pcons
      have hrectin : rectInSheet sheet rect :=
        inv1 rect (List.mem_append_right _ (List.mem_cons_self _ _))
      -- footprint of the new placement
      have hplW : placedW (PlacedPiece.mk item.piece rect.x rect.y fit.rotated) =
          (if fit.rotated then item.height else item.width) := by
        unfold placedW
        cases fit.rotated <;> simp [hpw, hph]
      have hplH : placedH (PlacedPiece.mk item.piece rect.x rect.y fit.rotated) =
          (if fit.rotated then item.width else item.height) := by
        unfold placedH
        cases fit.rotated <;> simp [hpw, hph]
      have hsubpl : SubRect rect.x rect.y
          (placedW (PlacedPiece.mk item.piece rect.x rect.y fit.rotated))
          (placedH (PlacedPiece.mk item.piece rect.x rect.y fit.rotated))
          rect.x rect.y rect.width rect.height := by
        rw [hplW, hplH]
        exact ⟨le_refl _, le_refl _, by linarith, by linarith⟩
      have hgs := guillotineSplit_spec rect
        (if fit.rotated then item.height else item.width)
        (if fit.rotated then item.width else item.height) k hk hpw0 hph0
      show FillInv sheet
        { freeRects := st.freeRects.take fit.rectIndex ++
            guillotineSplit rect (if fit.rotated then item.height else item.width)
              (if fit.rotated then item.width else item.height) k ++
            st.freeRects.drop (fit.rectIndex + 1)
          placements := st.placements ++
            [PlacedPiece.mk item.piece rect.x rect.y fit.rotated]
          remaining := st.remaining }
      have hmem_take : ∀ r ∈ st.freeRects.take fit.rectIndex,
          r ∈ st.freeRects.take fit.rectIndex ++
            rect :: st.freeRects.drop (fit.rectIndex + 1) :=
        fun r hr => List.mem_append_left _ hr
      have hmem_drop : ∀ r ∈ st.freeRects.drop (fit.rectIndex + 1),
          r ∈ st.freeRects.take fit.rectIndex ++
            rect :: st.freeRects.drop (fit.rectIndex + 1) :=
        fun r hr => List.mem_append_right _ (List.mem_cons_of_mem _ hr)
      -- disjointness of every old non-selected rectangle from `rect`
      have hOldDisjRect : ∀ r,
          r ∈ st.freeRects.take fit.rectIndex ∨
            r ∈ st.freeRects.drop (fit.rectIndex + 1) →
          freeDisj r rect := by
        rintro r (hr | hr)
        · exact Hcross r hr rect (List.mem_cons_self _ _)
        · exact (Hrectdrop r hr).symm
      refine ⟨?_, ?_, ?_, ?_, ?_⟩
      · -- free rectangles stay in the sheet
        intro r hr
        dsimp only at hr
        rcases List.mem_append.mp hr with hr' | hrd
        · rcases List.mem_append.mp hr' with hrt | hrs
          · exact inv1 r (hmem_take r hrt)
          · exact rectInSheet_of_subRect (hgs r hrs).1 hrectin
        · exact inv1 r (hmem_drop r hrd)
      · -- free rectangles pairwise disjoint
        dsimp only
        rw [List.pairwise_append]
        refine ⟨?_, Pdrop, ?_⟩
        · rw [List.pairwise_append]
          refine ⟨Ptake, guillotineSplit_pairwise rect _ _ k hk, ?_⟩
          intro a ha s hs
          exact RectDisj.mono_right (hgs s hs).1 (hOldDisjRect a (Or.inl ha))
        · intro a ha d hd
          rcases List.mem_append.mp ha with hat | has
          · exact Hcross a hat d (List.mem_cons_of_mem _ hd)
          · exact RectDisj.mono_left (hgs a has).1 (Hrectdrop d hd)
      · -- free rectangles disjoint from placements
        intro r hr pl hpl
        dsimp only at hr hpl
        rcases List.mem_append.mp hpl with hplo | hpl0
        · rcases List.mem_append.mp hr with hr' | hrd
          · rcases List.mem_append.mp hr' with hrt | hrs
            · exact inv3 r (hmem_take r hrt) pl hplo
            · exact RectDisj.mono_left (hgs r hrs).1
                (inv3 rect (List.mem_append_right _ (List.mem_cons_self _ _)) pl hplo)
          · exact inv3 r (hmem_drop r hrd) pl hplo
        · have hpl' : pl = PlacedPiece.mk item.piece rect.x rect.y fit.rotated := by
            simpa using hpl0
          subst hpl'
          rcases List.mem_append.mp hr with hr' | hrd
          · rcases List.mem_append.mp hr' with hrt | hrs
            · exact RectDisj.mono_right hsubpl (hOldDisjRect r (Or.inl hrt))
            · have := (hgs r hrs).2
              unfold freePlacedDisj
              rw [hplW, hplH]
              exact this
          · exact RectDisj.mono_right hsubpl (hOldDisjRect r (Or.inr hrd))
      · -- placements stay in the sheet
        intro pl hpl
        dsimp only at hpl
        rcases List.mem_append.mp hpl with hplo | hpl0
        · exact inv4 pl hplo
        · have hpl' : pl = PlacedPiece.mk item.piece rect.x rect.y fit.rotated := by
            simpa using hpl0
          subst hpl'
          obtain ⟨q1, q2, q3, q4⟩ := hrectin
          refine ⟨q1, q2, ?_, ?_⟩
          · show rect.x + placedW _ ≤ sheet.width
            rw [hplW]
            linarith
          · show rect.y + placedH _ ≤ sheet.height
            rw [hplH]
            linarith
      · -- placements pairwise disjoint
        dsimp only
        rw [List.pairwise_append]
        refine ⟨inv5, List.pairwise_singleton _ _, ?_⟩
        intro a ha b hb
        have hb' : b = PlacedPiece.mk item.piece rect.x rect.y fit.rotated := by
          simpa using hb
        subst hb'
        exact RectDisj.mono_right hsubpl
          ((inv3 rect (List.mem_append_right _ (List.mem_cons_self _ _)) a ha).symm)

/-- Folding `fillStep` preserves the fill invariant. -/
theorem fillFold_inv (sheet : StockSheet) (k : ℚ) (rot : Bool) (hk : 0 ≤ k) :
    ∀ (items : List ExpandedPiece) (st : FillState),
      (∀ it ∈ items, 0 ≤ it.width ∧ 0 ≤ it.height ∧
        it.width = it.piece.width ∧ it.height = it.piece.height) →
      FillInv sheet st → FillInv sheet (items.foldl (fillStep k rot) st) := by
  intro items
  induction items with
  | nil => intro st _ hinv; exact hinv
  | cons a rest ih =>
    intro st hQ hinv
    obtain ⟨h1, h2, h3, h4⟩ := hQ a (List.mem_cons_self a rest)
    exact ih _ (fun it hit => hQ it (List.mem_cons_of_mem a hit))
      (fillStep_inv sheet k rot st a hk h1 h2 h3 h4 hinv)

/-- `fillSheet` produces in-bounds, mutually disjoint placements. -/
theorem fillSheet_inv (items : List ExpandedPiece) (sheet : StockSheet)
    (k : ℚ) (rot : Bool) (hk : 0 ≤ k)
    (hitems : ∀ it ∈ items, 0 ≤ it.width ∧ 0 ≤ it.height ∧
      it.width = it.piece.width ∧ it.height = it.piece.height) :
    (∀ pl ∈ (fillSheet items sheet k rot).placements, placedInBounds sheet pl) ∧
    (fillSheet items sheet k rot).placements.Pairwise placedDisjoint := by
  have hinit : FillInv sheet
      { freeRects := [{ x := 0, y := 0, width := sheet.width, height := sheet.height }]
        placements := []
        remaining := [] } := by
    refine ⟨?_, List.pairwise_singleton _ _, ?_, ?_, List.Pairwise.nil⟩
    · intro r hr
      have hr' : r = FreeRect.mk 0 0 sheet.width sheet.height := by simpa using hr
      subst hr'
      exact ⟨le_refl 0, le_refl 0, by dsimp only; linarith, by dsimp only; linarith⟩
    · intro r _ pl hpl
      cases hpl
    · intro pl hpl
      cases hpl
  have h := fillFold_inv sheet k rot hk items _ hitems hinit
  obtain ⟨_, _, _, h4, h5⟩ := h
  exact ⟨h4, h5⟩

/-- Instances produced by `expandPieces` carry their piece's dimensions.
-/
theorem mem_expandPieces {it : ExpandedPiece} {pieces : List CutPiece}
    (h : it ∈ expandPieces pieces) :
    it.piece ∈ pieces ∧ it.width = it.piece.width ∧ it.height = it.piece.height := by
  unfold expandPieces at h
  rw [List.mem_flatMap] at h
  obtain ⟨p, hp, hit⟩ := h
  have heq := List.eq_of_mem_replicate hit
  subst heq
  exact ⟨hp, rfl, rfl⟩

/-- The C4 property of `packPieces`: in every returned layout all
placements (with rotated dimensions where flagged) lie within the
layout's sheet and are pairwise interior-disjoint. -/
def packClaim (pieces : List CutPiece) (sheet : StockSheet) (kerfWidth : ℚ)
    (allowRotation : Bool) : Prop :=
  ∀ L ∈ packPieces pieces sheet kerfWidth allowRotation,
    (∀ pl ∈ L.placements, placedInBounds L.sheet pl) ∧
    L.placements.Pairwise placedDisjoint

/-- C4: for every piece list with non-negative dimensions, stock sheet,
non-negative kerf and rotation setting, no two placed pieces of one
sheet layout overlap and every placement lies within the sheet's bounds.
-/
theorem packPieces_no_overlap_in_bounds (pieces : List CutPiece)
    (sheet : StockSheet) (kerfWidth : ℚ) (allowRotation : Bool)
    (hk : 0 ≤ kerfWidth)
    (hp : ∀ p ∈ pieces, 0 ≤ p.width ∧ 0 ≤ p.height) :
    packClaim pieces sheet kerfWidth allowRotation := by
  intro L hL
  rw [packPieces] at hL
  refine packLoop_layouts sheet kerfWidth allowRotation
    (fun it => 0 ≤ it.width ∧ 0 ≤ it.height ∧
      it.width = it.piece.width ∧ it.height = it.piece.height)
    (fun L => (∀ pl ∈ L.placements, placedInBounds L.sheet pl) ∧
      L.placements.Pairwise placedDisjoint)
    ?_ _ ?_ L hL
  · intro items hQ _
    obtain ⟨h1, h2⟩ := fillSheet_inv items sheet kerfWidth allowRotation hk hQ
    constructor
    · intro pl hpl
      exact h1 pl hpl
    · exact h2
  · intro it hit
    obtain ⟨hmem, hw, hh⟩ := mem_expandPieces (mem_sortByAreaDesc hit)
    obtain ⟨hw0, hh0⟩ := hp it.piece hmem
    exact ⟨hw ▸ hw0, hh ▸ hh0, hw, hh⟩

/-- Witness for C4 at the two-piece kerf scenario. -/
theorem packPieces_no_overlap_in_bounds_witness :
    (0 : ℚ) ≤ 1/8 ∧
    (∀ p ∈ [pieceTwo24x47], 0 ≤ p.width ∧ 0 ≤ p.height) ∧
    packClaim [pieceTwo24x47] sheet48x48 (1/8) true := by
  have hk : (0 : ℚ) ≤ 1/8 := by norm_num
  have hp : ∀ p ∈ [pieceTwo24x47], 0 ≤ p.width ∧ 0 ≤ p.height := by
    intro p hp
    have : p = pieceTwo24x47 := by simpa using hp
    subst this
    norm_num [pieceTwo24x47]
  exact ⟨hk, hp,
    packPieces_no_overlap_in_bounds [pieceTwo24x47] sheet48x48 (1/8) true hk hp⟩

end Chest
